import Mathlib

/-!
Verification development for the Salasar policy-reader application.

The definitions below are a shallow embedding of the Python services in
`policy_reader/policy_reader/services/` and
`policy_reader/policy_reader/doctype/policy_reader_settings/`.
Python strings are modelled as Lean `String`/`List Char` over their ASCII
fragment; Python dicts as association lists with in-place update semantics;
machine floats as rationals; fallible operations return `Option`.
Framework helpers from `frappe.utils` (`flt`, `cint`, `cstr`, `getdate`) are
modelled on the value shapes the services feed them, mirroring their
documented behaviour (comma stripping, int-via-float coercion, dateutil
numeric-date parsing).
-/

namespace Salasar

/-! ### Python character classes (ASCII fragment)

`isPyWs` models the whitespace class used by `str.strip`, `str.split` and
the regex class `\s`; `isLowerAlnum` models the regex class `[a-z0-9]` from
`_normalize_key` / `_normalize_alias_key`. -/

def isPyWs (c : Char) : Bool :=
  (c.toNat == 32) || (c.toNat == 9) || (c.toNat == 10) ||
    (c.toNat == 13) || (c.toNat == 11) || (c.toNat == 12)

def isLowerAlnum (c : Char) : Bool :=
  (97 ≤ c.toNat && c.toNat ≤ 122) || (48 ≤ c.toNat && c.toNat ≤ 57)

def isAsciiDigit (c : Char) : Bool :=
  48 ≤ c.toNat && c.toNat ≤ 57

/-- Python `str.strip()` on a character list (ASCII whitespace). -/
def pyStripL (l : List Char) : List Char :=
  (l.dropWhile isPyWs).rdropWhile isPyWs

/-- Python `str.strip()` on a `String`. -/
def pyStrip (s : String) : String := String.mk (pyStripL s.toList)

/-- Python `str.lower()` (ASCII fragment). -/
def pyLower (s : String) : String := String.mk (s.toList.map Char.toLower)

/-- Python `str.upper()` (ASCII fragment). -/
def pyUpper (s : String) : String := String.mk (s.toList.map Char.toUpper)

/-! ### `_normalize_key` (policy_creation_service.py lines 335-346) and the
identical `_normalize_alias_key` (policy_reader_settings.py lines 627-638)

Python body: on falsy input return the empty string; otherwise
`value = cstr(text).strip().lower()`, then
`value = re.sub(r"[^a-z0-9]+", " ", value)`, then
`value = " ".join(part for part in value.split() if part)`.
The `except` fallback is dead code for string input (no step raises).

`collapseRuns` is the `re.sub` step: every maximal run of characters outside
`[a-z0-9]` becomes a single space.  `pyWords` is `str.split()` (split on
whitespace runs, dropping empty parts); `spaceJoin` is `" ".join`. -/

def collapseStep (c : Char) (acc : List Char) : List Char :=
  if isLowerAlnum c then c :: acc
  else if acc.head? = some ' ' then acc else ' ' :: acc

def collapseRuns (l : List Char) : List Char := l.foldr collapseStep []

def wordStep (c : Char) (acc : List (List Char)) : List (List Char) :=
  if isPyWs c then [] :: acc
  else
    match acc with
    | [] => [[c]]
    | w :: ws => (c :: w) :: ws

def pyWordsCore (l : List Char) : List (List Char) := l.foldr wordStep []

def pyWords (l : List Char) : List (List Char) :=
  (pyWordsCore l).filter (fun w => !w.isEmpty)

def spaceJoin : List (List Char) → List Char
  | [] => []
  | [w] => w
  | w :: ws => w ++ ' ' :: spaceJoin ws

def normalizeKeyL (l : List Char) : List Char :=
  if l.isEmpty then []
  else spaceJoin (pyWords (collapseRuns ((pyStripL l).map Char.toLower)))

/-- `PolicyCreationService._normalize_key` and
`PolicyReaderSettings._normalize_alias_key` (identical bodies). -/
def normalize_key (s : String) : String := String.mk (normalizeKeyL s.toList)

/-! ### Facts about the normalizer -/

theorem isLowerAlnum_not_ws {c : Char} (h : isLowerAlnum c = true) :
    isPyWs c = false := by
  simp only [isLowerAlnum, Bool.or_eq_true, Bool.and_eq_true, decide_eq_true_eq] at h
  simp only [isPyWs, Bool.or_eq_false_iff, beq_eq_false_iff_ne, ne_eq]
  omega

theorem isLowerAlnum_ne_space {c : Char} (h : isLowerAlnum c = true) : c ≠ ' ' := by
  intro hc
  subst hc
  simp [isLowerAlnum] at h

theorem toLower_of_isLowerAlnum {c : Char} (h : isLowerAlnum c = true) :
    Char.toLower c = c := by
  simp only [isLowerAlnum, Bool.or_eq_true, Bool.and_eq_true, decide_eq_true_eq] at h
  show (if c.toNat ≥ 65 ∧ c.toNat ≤ 90 then Char.ofNat (c.toNat + 32) else c) = c
  rw [if_neg (by omega)]

theorem mem_collapseRuns {l : List Char} {c : Char} (h : c ∈ collapseRuns l) :
    isLowerAlnum c = true ∨ c = ' ' := by
  induction l with
  | nil => simp [collapseRuns] at h
  | cons a l ih =>
    have hstep : collapseRuns (a :: l) = collapseStep a (collapseRuns l) := rfl
    rw [hstep] at h
    unfold collapseStep at h
    split at h
    · rcases List.mem_cons.mp h with h1 | h1
      · exact Or.inl (h1 ▸ (by assumption))
      · exact ih h1
    · split at h
      · exact ih h
      · rcases List.mem_cons.mp h with h1 | h1
        · exact Or.inr h1
        · exact ih h1

theorem mem_of_mem_pyWordsCore {l : List Char} {w : List Char} {c : Char}
    (hw : w ∈ pyWordsCore l) (hc : c ∈ w) : c ∈ l ∧ isPyWs c = false := by
  induction l generalizing w with
  | nil => simp [pyWordsCore] at hw
  | cons a l ih =>
    have hstep : pyWordsCore (a :: l) = wordStep a (pyWordsCore l) := rfl
    rw [hstep] at hw
    unfold wordStep at hw
    split at hw
    · rcases List.mem_cons.mp hw with h1 | h1
      · subst h1; simp at hc
      · obtain ⟨h2, h3⟩ := ih h1 hc
        exact ⟨List.mem_cons_of_mem _ h2, h3⟩
    · rename_i hws
      cases hacc : pyWordsCore l with
      | nil =>
        rw [hacc] at hw
        simp only [List.mem_singleton] at hw
        subst hw
        simp only [List.mem_singleton] at hc
        subst hc
        exact ⟨List.mem_cons_self _ _, by simpa using hws⟩
      | cons w0 ws =>
        rw [hacc] at hw
        rcases List.mem_cons.mp hw with h1 | h1
        · subst h1
          rcases List.mem_cons.mp hc with h2 | h2
          · subst h2
            exact ⟨List.mem_cons_self _ _, by simpa using hws⟩
          · obtain ⟨h3, h4⟩ := ih (hacc ▸ List.mem_cons_self w0 ws) h2
            exact ⟨List.mem_cons_of_mem _ h3, h4⟩
        · obtain ⟨h3, h4⟩ := ih (hacc ▸ List.mem_cons_of_mem w0 h1) hc
          exact ⟨List.mem_cons_of_mem _ h3, h4⟩

/-- Well-formed word lists: nonempty words made of `[a-z0-9]` characters. -/
def GoodWords (W : List (List Char)) : Prop :=
  ∀ w ∈ W, w ≠ [] ∧ ∀ c ∈ w, isLowerAlnum c = true

theorem goodWords_pyWords_collapseRuns (t : List Char) :
    GoodWords (pyWords (collapseRuns t)) := by
  intro w hw
  unfold pyWords at hw
  rw [List.mem_filter] at hw
  obtain ⟨hw1, hw2⟩ := hw
  refine ⟨by simpa using hw2, ?_⟩
  intro c hc
  obtain ⟨hmem, hws⟩ := mem_of_mem_pyWordsCore hw1 hc
  rcases mem_collapseRuns hmem with h | h
  · exact h
  · subst h; simp [isPyWs] at hws

theorem foldr_wordStep_nonws {w : List Char} (hw : ∀ c ∈ w, isPyWs c = false)
    (acc : List (List Char)) (v : List Char) :
    List.foldr wordStep (v :: acc) w = (w ++ v) :: acc := by
  induction w with
  | nil => rfl
  | cons c w ih =>
    have hc : isPyWs c = false := hw c (List.mem_cons_self _ _)
    have hw' : ∀ d ∈ w, isPyWs d = false := fun d hd => hw d (List.mem_cons_of_mem _ hd)
    simp only [List.foldr_cons, ih hw']
    unfold wordStep
    simp [hc]

theorem pyWordsCore_of_word {w : List Char} (hne : w ≠ [])
    (hw : ∀ c ∈ w, isPyWs c = false) : pyWordsCore w = [w] := by
  unfold pyWordsCore
  cases w with
  | nil => exact absurd rfl hne
  | cons c w =>
    have hc : isPyWs c = false := hw c (List.mem_cons_self _ _)
    have hw' : ∀ d ∈ w, isPyWs d = false := fun d hd => hw d (List.mem_cons_of_mem _ hd)
    cases w with
    | nil =>
      simp only [List.foldr_cons, List.foldr_nil]
      unfold wordStep
      simp [hc]
    | cons d w' =>
      have : List.foldr wordStep ([] : List (List Char)) (d :: w') = [d :: w'] := by
        have h2 := pyWordsCore_of_word (w := d :: w') (by simp) hw'
        simpa [pyWordsCore] using h2
      simp only [List.foldr_cons] at this ⊢
      rw [this]
      unfold wordStep
      simp [hc]

theorem pyWordsCore_spaceJoin {W : List (List Char)} (hW : GoodWords W) :
    pyWordsCore (spaceJoin W) = W := by
  induction W with
  | nil => rfl
  | cons w ws ih =>
    have hw := hW w (List.mem_cons_self _ _)
    have hwd : ∀ c ∈ w, isPyWs c = false := fun c hc =>
      isLowerAlnum_not_ws (hw.2 c hc)
    cases ws with
    | nil =>
      show pyWordsCore (spaceJoin [w]) = [w]
      simp only [spaceJoin]
      exact pyWordsCore_of_word hw.1 hwd
    | cons w2 ws2 =>
      have hW' : GoodWords (w2 :: ws2) := fun u hu => hW u (List.mem_cons_of_mem _ hu)
      have ih' := ih hW'
      show pyWordsCore (w ++ ' ' :: spaceJoin (w2 :: ws2)) = w :: w2 :: ws2
      unfold pyWordsCore
      rw [List.foldr_append]
      have hmid : List.foldr wordStep [] (' ' :: spaceJoin (w2 :: ws2))
          = [] :: (w2 :: ws2) := by
        simp only [List.foldr_cons]
        have : List.foldr wordStep [] (spaceJoin (w2 :: ws2)) = w2 :: ws2 := ih'
        rw [this]
        unfold wordStep
        simp [isPyWs]
      rw [hmid]
      rw [foldr_wordStep_nonws hwd]
      simp

theorem pyWords_spaceJoin {W : List (List Char)} (hW : GoodWords W) :
    pyWords (spaceJoin W) = W := by
  unfold pyWords
  rw [pyWordsCore_spaceJoin hW]
  apply List.filter_eq_self.mpr
  intro w hw
  simpa using (hW w hw).1

theorem foldr_collapseStep_alnum {w : List Char}
    (hw : ∀ c ∈ w, isLowerAlnum c = true) (init : List Char) :
    List.foldr collapseStep init w = w ++ init := by
  induction w with
  | nil => rfl
  | cons c w ih =>
    have hc := hw c (List.mem_cons_self _ _)
    have hw' : ∀ d ∈ w, isLowerAlnum d = true := fun d hd => hw d (List.mem_cons_of_mem _ hd)
    simp only [List.foldr_cons, ih hw']
    unfold collapseStep
    simp [hc]

theorem head?_spaceJoin {W : List (List Char)} {w : List Char} {ws : List (List Char)}
    (hWeq : W = w :: ws) (hne : w ≠ []) :
    (spaceJoin W).head? = w.head? := by
  subst hWeq
  cases ws with
  | nil => rfl
  | cons w2 ws2 =>
    show (w ++ ' ' :: spaceJoin (w2 :: ws2)).head? = w.head?
    cases w with
    | nil => exact absurd rfl hne
    | cons c w' => rfl

theorem collapseRuns_spaceJoin {W : List (List Char)} (hW : GoodWords W) :
    collapseRuns (spaceJoin W) = spaceJoin W := by
  induction W with
  | nil => rfl
  | cons w ws ih =>
    have hw := hW w (List.mem_cons_self _ _)
    cases ws with
    | nil =>
      show collapseRuns (spaceJoin [w]) = spaceJoin [w]
      simp only [spaceJoin]
      unfold collapseRuns
      simpa using foldr_collapseStep_alnum hw.2 []
    | cons w2 ws2 =>
      have hW' : GoodWords (w2 :: ws2) := fun u hu => hW u (List.mem_cons_of_mem _ hu)
      have ih' := ih hW'
      have hw2 := hW' w2 (List.mem_cons_self _ _)
      show collapseRuns (w ++ ' ' :: spaceJoin (w2 :: ws2)) = w ++ ' ' :: spaceJoin (w2 :: ws2)
      unfold collapseRuns
      rw [List.foldr_append]
      have hmid : List.foldr collapseStep [] (' ' :: spaceJoin (w2 :: ws2))
          = ' ' :: spaceJoin (w2 :: ws2) := by
        simp only [List.foldr_cons]
        have hrec : List.foldr collapseStep [] (spaceJoin (w2 :: ws2))
            = spaceJoin (w2 :: ws2) := ih'
        rw [hrec]
        unfold collapseStep
        have hhead : (spaceJoin (w2 :: ws2)).head? = w2.head? := head?_spaceJoin rfl hw2.1
        have : (spaceJoin (w2 :: ws2)).head? ≠ some ' ' := by
          rw [hhead]
          cases hcw : w2 with
          | nil => exact absurd hcw hw2.1
          | cons c w' =>
            simp only [List.head?_cons, ne_eq, Option.some.injEq]
            exact isLowerAlnum_ne_space (hw2.2 c (hcw ▸ List.mem_cons_self _ _))
        simp [isLowerAlnum, this]
      rw [hmid]
      exact foldr_collapseStep_alnum hw.2 _

theorem mem_spaceJoin {W : List (List Char)} {c : Char} (h : c ∈ spaceJoin W) :
    (∃ w ∈ W, c ∈ w) ∨ c = ' ' := by
  induction W with
  | nil => simp [spaceJoin] at h
  | cons w ws ih =>
    cases ws with
    | nil =>
      simp only [spaceJoin] at h
      exact Or.inl ⟨w, List.mem_cons_self _ _, h⟩
    | cons w2 ws2 =>
      simp only [spaceJoin, List.mem_append, List.mem_cons] at h
      rcases h with h | h | h
      · exact Or.inl ⟨w, List.mem_cons_self _ _, h⟩
      · exact Or.inr h
      · rcases ih h with ⟨u, hu, hc⟩ | h2
        · exact Or.inl ⟨u, List.mem_cons_of_mem _ hu, hc⟩
        · exact Or.inr h2

theorem map_toLower_spaceJoin {W : List (List Char)} (hW : GoodWords W) :
    (spaceJoin W).map Char.toLower = spaceJoin W := by
  rw [List.map_congr_left (g := id) ?_]
  · exact List.map_id _
  · intro c hc
    rcases mem_spaceJoin hc with ⟨w, hw, hcw⟩ | h
    · exact toLower_of_isLowerAlnum ((hW w hw).2 c hcw)
    · subst h; rfl

theorem spaceJoin_ne_nil {W : List (List Char)} (hW : GoodWords W) (hne : W ≠ []) :
    spaceJoin W ≠ [] := by
  cases W with
  | nil => exact absurd rfl hne
  | cons w ws =>
    have hw := hW w (List.mem_cons_self _ _)
    cases ws with
    | nil => exact hw.1
    | cons w2 ws2 =>
      show w ++ ' ' :: spaceJoin (w2 :: ws2) ≠ []
      simp

theorem getLast?_spaceJoin {W : List (List Char)} (hW : GoodWords W) (hne : W ≠ []) :
    ∃ w, (spaceJoin W).getLast? = w.getLast? ∧ w ∈ W ∧ w ≠ [] := by
  induction W with
  | nil => exact absurd rfl hne
  | cons w ws ih =>
    have hw := hW w (List.mem_cons_self _ _)
    cases ws with
    | nil => exact ⟨w, rfl, List.mem_cons_self _ _, hw.1⟩
    | cons w2 ws2 =>
      have hW' : GoodWords (w2 :: ws2) := fun u hu => hW u (List.mem_cons_of_mem _ hu)
      obtain ⟨u, hu1, hu2, hu3⟩ := ih hW' (by simp)
      refine ⟨u, ?_, List.mem_cons_of_mem _ hu2, hu3⟩
      show (w ++ ' ' :: spaceJoin (w2 :: ws2)).getLast? = u.getLast?
      rw [List.getLast?_append_of_ne_nil _ (by simp), ← hu1]
      cases hsj : spaceJoin (w2 :: ws2) with
      | nil => exact absurd hsj (spaceJoin_ne_nil hW' (by simp))
      | cons d t => simp [List.getLast?_cons_cons]

theorem pyStripL_spaceJoin {W : List (List Char)} (hW : GoodWords W) :
    pyStripL (spaceJoin W) = spaceJoin W := by
  rcases hWe : W with _ | ⟨w, ws⟩
  · rfl
  · rw [← hWe]
    have hne : W ≠ [] := by rw [hWe]; simp
    have hw : w ≠ [] := (hW w (hWe ▸ List.mem_cons_self _ _)).1
    unfold pyStripL
    have hdrop : (spaceJoin W).dropWhile isPyWs = spaceJoin W := by
      cases hsj : spaceJoin W with
      | nil => rfl
      | cons c t =>
        have hc : c ∈ spaceJoin W := hsj ▸ List.mem_cons_self _ _
        have hhead : (spaceJoin W).head? = w.head? := head?_spaceJoin hWe hw
        have hcw : isLowerAlnum c = true := by
          rw [hsj] at hhead
          cases hwc : w with
          | nil => exact absurd hwc hw
          | cons d t' =>
            rw [hwc] at hhead
            simp only [List.head?_cons, Option.some.injEq] at hhead
            subst hhead
            exact (hW w (hWe ▸ List.mem_cons_self _ _)).2 c
              (hwc ▸ List.mem_cons_self _ _)
        rw [List.dropWhile_cons, isLowerAlnum_not_ws hcw]
        simp
    rw [hdrop]
    apply List.rdropWhile_eq_self_iff.mpr
    intro hl
    obtain ⟨u, hu1, hu2, hu3⟩ := getLast?_spaceJoin hW hne
    have hlast : (spaceJoin W).getLast hl ∈ u := by
      have h1 : (spaceJoin W).getLast? = some ((spaceJoin W).getLast hl) :=
        List.getLast?_eq_getLast _ hl
      have h2 : u.getLast? = some (u.getLast hu3) := List.getLast?_eq_getLast _ hu3
      rw [hu1, h2, Option.some.injEq] at h1
      exact h1 ▸ List.getLast_mem hu3
    have := (hW u hu2).2 _ hlast
    simp [isLowerAlnum_not_ws this]

/-- Characters of a normalizer output are good words joined by single spaces. -/
theorem normalizeKeyL_eq_spaceJoin (l : List Char) :
    normalizeKeyL l = [] ∨
      ∃ W, GoodWords W ∧ W ≠ [] ∧ normalizeKeyL l = spaceJoin W := by
  unfold normalizeKeyL
  split
  · exact Or.inl rfl
  · cases hWe : pyWords (collapseRuns ((pyStripL l).map Char.toLower)) with
    | nil => exact Or.inl rfl
    | cons w ws =>
      right
      refine ⟨w :: ws, ?_, by simp, rfl⟩
      rw [← hWe]
      exact goodWords_pyWords_collapseRuns _

theorem normalizeKeyL_idem (l : List Char) :
    normalizeKeyL (normalizeKeyL l) = normalizeKeyL l := by
  rcases normalizeKeyL_eq_spaceJoin l with h | ⟨W, hW, hne, h⟩
  · rw [h]; rfl
  · rw [h]
    have hsne : spaceJoin W ≠ [] := spaceJoin_ne_nil hW hne
    unfold normalizeKeyL
    rw [if_neg (by simpa using hsne)]
    rw [pyStripL_spaceJoin hW, map_toLower_spaceJoin hW,
      collapseRuns_spaceJoin hW, pyWords_spaceJoin hW]

example : normalize_key "Policy No." = "policy no" := by decide
example : normalize_key "policy_no" = "policy no" := by decide
example : normalize_key "  PolicyNo  " = "policyno" := by decide
example : normalize_key "" = "" := by decide

/-! ### Python values

`PyVal` covers the value shapes that flow through the JSON bag and the
converter: null, strings, ints, floats (modelled as rationals), booleans,
and the date/datetime objects produced by conversion. -/

inductive PyVal where
  | vnone : PyVal
  | vstr (s : String) : PyVal
  | vint (n : Int) : PyVal
  | vfloat (q : ℚ) : PyVal
  | vbool (b : Bool) : PyVal
  | vdate (y m d : Nat) : PyVal
  | vdatetime (y m d : Nat) : PyVal
  deriving DecidableEq, Repr

/-- Raw values as they appear in the extracted JSON bag
(string, number, boolean, or null). -/
def PyVal.isRaw : PyVal → Bool
  | .vnone => true
  | .vstr _ => true
  | .vint _ => true
  | .vfloat _ => true
  | .vbool _ => true
  | _ => false

/-- Python truthiness (`bool(value)` / `if not value`). -/
def pyTruthy : PyVal → Bool
  | .vnone => false
  | .vstr s => !s.isEmpty
  | .vint n => n != 0
  | .vfloat q => q != 0
  | .vbool b => b
  | .vdate _ _ _ => true
  | .vdatetime _ _ _ => true

/-- Fixed-width two-digit print used when rendering model dates. -/
def pad2 (n : Nat) : String :=
  if n < 10 then "0" ++ toString n else toString n

/-- Python `str(value)`.  For floats an exact decimal rendering is not
needed by any claim; the model renders the underlying rational, which is
nonempty and never one of the NA sentinels, matching what the guards rely
on. -/
def pyStr : PyVal → String
  | .vnone => "None"
  | .vstr s => s
  | .vint n => toString n
  | .vfloat q => toString q.num ++ "/" ++ toString q.den
  | .vbool b => if b then "True" else "False"
  | .vdate y m d => toString y ++ "-" ++ pad2 m ++ "-" ++ pad2 d
  | .vdatetime y m d => toString y ++ "-" ++ pad2 m ++ "-" ++ pad2 d ++ " 00:00:00"

/-- `frappe.utils.cstr`: empty string for `None`, else `str(value)`. -/
def cstr (v : PyVal) : String :=
  match v with
  | .vnone => ""
  | _ => pyStr v

/-- The NA sentinel guard shared by the converters:
`str(value).strip().upper() in ["NA", "N/A", "NULL", "NONE", ""]`. -/
def isNAText (s : String) : Bool :=
  let u := pyUpper (pyStrip s)
  u == "NA" || u == "N/A" || u == "NULL" || u == "NONE" || u == ""

/-- Null/empty/NA guard at the top of `convert_field_value`,
`convert_date_value` and `convert_datetime_value`:
`if not value or str(value).strip().upper() in [...]`. -/
def naGuard (v : PyVal) : Bool :=
  !pyTruthy v || isNAText (pyStr v)

/-! ### Python float parsing and the frappe numeric coercions

`pyFloatOfString` models CPython `float(str)` on the decimal fragment
(optional sign, digits with optional fraction, optional exponent,
surrounding whitespace).  `flt` models `frappe.utils.flt` (strip commas
from strings, then `float`, defaulting to 0 on failure); `cint` models
`frappe.utils.cint` (`int(float(value))`, defaulting to 0 on failure). -/

def digitsToNat (l : List Char) : Nat :=
  l.foldl (fun acc c => acc * 10 + (c.toNat - 48)) 0

def parseExponent (l : List Char) : Option Int :=
  match l with
  | [] => none
  | c :: rest =>
    if c = '+' then
      if rest ≠ [] && rest.all isAsciiDigit then some (digitsToNat rest : Int) else none
    else if c = '-' then
      if rest ≠ [] && rest.all isAsciiDigit then some (-(digitsToNat rest : Int)) else none
    else
      if (c :: rest).all isAsciiDigit then some (digitsToNat (c :: rest) : Int) else none

/-- Mantissa part: `digits`, `digits.digits`, `digits.`, or `.digits`.
Returns the mantissa digits read as a natural number together with the
number of fractional digits. -/
def parseMantissa (l : List Char) : Option (Nat × Nat) :=
  let intPart := l.takeWhile isAsciiDigit
  let rest := l.dropWhile isAsciiDigit
  match rest with
  | [] => if intPart ≠ [] then some (digitsToNat intPart, 0) else none
  | c :: frac =>
    if c = '.' then
      if frac.all isAsciiDigit && (intPart ≠ [] || frac ≠ []) then
        some (digitsToNat (intPart ++ frac), frac.length)
      else none
    else none

/-- Assemble `sign * mant * 10 ^ (exp - fracLen)` as a rational, using only
natural-number arithmetic plus one `mkRat`. -/
def assembleFloat (neg : Bool) (mant fracLen : Nat) (exp : Int) : ℚ :=
  let t : Int := exp - (fracLen : Int)
  let signedMant : Int := if neg then -(mant : Int) else (mant : Int)
  if 0 ≤ t then mkRat (signedMant * ((10 : Int) ^ t.toNat)) 1
  else mkRat signedMant ((10 : Nat) ^ (-t).toNat)

def pyFloatOfChars (l : List Char) : Option ℚ :=
  let core := (l.dropWhile isPyWs).rdropWhile isPyWs
  let signed : Bool × List Char :=
    match core with
    | c :: rest => if c = '+' then (false, rest) else if c = '-' then (true, rest) else (false, core)
    | [] => (false, [])
  let neg := signed.1
  let body := signed.2
  let mantPart := body.takeWhile (fun c => isAsciiDigit c || c = '.')
  let expPart := body.dropWhile (fun c => isAsciiDigit c || c = '.')
  match expPart with
  | [] => (parseMantissa mantPart).map (fun m => assembleFloat neg m.1 m.2 0)
  | c :: rest =>
    if c = 'e' || c = 'E' then
      match parseMantissa mantPart, parseExponent rest with
      | some m, some e => some (assembleFloat neg m.1 m.2 e)
      | _, _ => none
    else none

def pyFloatOfString (s : String) : Option ℚ := pyFloatOfChars s.toList

/-- CPython `float(value)` on a `PyVal` (raises, modelled as `none`, on
strings that do not parse and on non-numeric objects). -/
def pyFloatOf (v : PyVal) : Option ℚ :=
  match v with
  | .vstr s => pyFloatOfString s
  | .vint n => some (mkRat n 1)
  | .vfloat q => some q
  | .vbool b => some (if b then mkRat 1 1 else mkRat 0 1)
  | _ => none

/-- `frappe.utils.flt`: for strings, strip commas first; any failure
yields 0. -/
def flt (v : PyVal) : ℚ :=
  let v' : PyVal :=
    match v with
    | .vstr s => .vstr (String.mk (s.toList.filter (fun c => c ≠ ',')))
    | _ => v
  match pyFloatOf v' with
  | some q => q
  | none => 0

/-- Truncation toward zero (`int(float)` in Python), by cases on the sign
so that only natural-number division is used. -/
def ratTrunc (q : ℚ) : Int :=
  match q.num with
  | .ofNat n => ((n / q.den : Nat) : Int)
  | .negSucc m => -(((m + 1) / q.den : Nat) : Int)

/-- `frappe.utils.cint`: `int(float(value))`, default 0 on failure. -/
def cint (v : PyVal) : Int :=
  match pyFloatOf v with
  | some q => ratTrunc q
  | none => 0

example : flt (.vstr "4,156,250.00") = 4156250 := by decide
example : flt (.vstr "₹4,156,250.00") = 0 := by decide
example : cint (.vstr "5 seater capacity") = 0 := by decide
example : cint (.vstr "5") = 5 := by decide
example : cint (.vstr "-2.7") = -2 := by decide

/-! ### Dates

`pyGetdateString` models `frappe.utils.getdate` (dateutil) on the
dash-separated numeric strings the service constructs (`YYYY-MM-DD`):
dateutil pins the leading 4-digit component as the year and assigns the
remaining two numbers as month and day in order (`resolve_ymd` applies no
swap heuristic once the year index is fixed at the front), so an
impossible month raises ParserError, `frappe.utils.getdate` throws, and
the calling converter catches (modelled `none`).  Other input shapes are
conservatively unparsed (the services only reach them through the generic
fallback, which no claim depends on). -/

def isLeapYear (y : Nat) : Bool :=
  (y % 4 == 0 && y % 100 != 0) || (y % 400 == 0)

def daysInMonth (y m : Nat) : Nat :=
  if m == 2 then (if isLeapYear y then 29 else 28)
  else if m == 4 || m == 6 || m == 9 || m == 11 then 30
  else 31

def validYMD (y m d : Nat) : Bool :=
  1 ≤ y && y ≤ 9999 && 1 ≤ m && m ≤ 12 && 1 ≤ d && d ≤ daysInMonth y m

def allDigits (s : String) : Bool :=
  !s.isEmpty && s.toList.all isAsciiDigit

def natOfString (s : String) : Nat := digitsToNat s.toList

/-- Python `str.split(sep)` for a one-character separator (keeps empty
parts, exactly like Python with an explicit separator). -/
def splitOnCharL (sep : Char) (l : List Char) : List (List Char) :=
  l.foldr (fun c acc =>
    if c = sep then [] :: acc
    else
      match acc with
      | [] => [[c]]
      | w :: ws => (c :: w) :: ws) [[]]

def pySplit (s : String) (sep : Char) : List String :=
  (splitOnCharL sep s.toList).map String.mk

def pyGetdateString (s : String) : Option (Nat × Nat × Nat) :=
  match pySplit s '-' with
  | [ys, ms, ds] =>
    if allDigits ys && allDigits ms && allDigits ds && ys.length == 4
        && ms.length ≤ 2 && ds.length ≤ 2 then
      let y := natOfString ys
      let m := natOfString ms
      let d := natOfString ds
      if validYMD y m d then some (y, m, d) else none
    else none
  | _ => none

/-- `frappe.utils.getdate` applied to an arbitrary value (the generic
fallback path of `convert_date_value`).  Non-string, non-date values make
dateutil raise, which the caller catches. -/
def pyGetdateVal (v : PyVal) : Option (Nat × Nat × Nat) :=
  match v with
  | .vstr s => pyGetdateString (pyStrip s)
  | .vdate y m d => some (y, m, d)
  | .vdatetime y m d => some (y, m, d)
  | _ => none

/-- `frappe.utils.get_datetime` on the `YYYY-MM-DD HH:MM:SS` strings the
service constructs (time part ignored: only midnight is ever built). -/
def pyGetDatetimeString (s : String) : Option (Nat × Nat × Nat) :=
  match pySplit s ' ' with
  | [d] => pyGetdateString d
  | [d, t] =>
    match pySplit t ':' with
    | [hh, mm, ss] =>
      if allDigits hh && allDigits mm && allDigits ss then pyGetdateString d else none
    | _ => none
  | _ => none

def pyGetDatetimeVal (v : PyVal) : Option (Nat × Nat × Nat) :=
  match v with
  | .vstr s => pyGetDatetimeString (pyStrip s)
  | .vdate y m d => some (y, m, d)
  | .vdatetime y m d => some (y, m, d)
  | _ => none

/-- Python `str.zfill(2)`. -/
def zfill2 (s : String) : String :=
  String.mk (List.replicate (2 - s.length) '0' ++ s.toList)

/-- `PolicyCreationService.convert_date_value` (lines 466-488): strings
shaped `D/M/YYYY` (day and month of at most 2 characters) are rebuilt as
`YYYY-MM-DD` and handed to `getdate`; everything else goes to the generic
`getdate` fallback; any parse failure degrades to `None`. -/
def convert_date_value (v : PyVal) : Option (Nat × Nat × Nat) :=
  if naGuard v then none
  else
    let dateStr := pyStrip (pyStr v)
    let parts := pySplit dateStr '/'
    if dateStr.toList.contains '/' && parts.length == 3 then
      match parts with
      | [d, m, y] =>
        if d.length ≤ 2 && m.length ≤ 2 && y.length == 4 then
          pyGetdateString (y ++ "-" ++ zfill2 m ++ "-" ++ zfill2 d)
        else pyGetdateVal v
      | _ => pyGetdateVal v
    else pyGetdateVal v

/-- `PolicyCreationService.convert_datetime_value` (lines 490-514). -/
def convert_datetime_value (v : PyVal) : Option (Nat × Nat × Nat) :=
  if naGuard v then none
  else
    let dateStr := pyStrip (pyStr v)
    let parts := pySplit dateStr '/'
    if dateStr.toList.contains '/' && parts.length == 3 then
      match parts with
      | [d, m, y] =>
        if d.length ≤ 2 && m.length ≤ 2 && y.length == 4 then
          pyGetDatetimeString (y ++ "-" ++ zfill2 m ++ "-" ++ zfill2 d ++ " 00:00:00")
        else pyGetDatetimeVal v
      | _ => pyGetDatetimeVal v
    else pyGetDatetimeVal v

example : convert_date_value (.vstr "15/03/2024") = some (2024, 3, 15) := by decide
example : convert_date_value (.vstr "03/15/2024") = none := by decide
example : convert_date_value (.vstr "NA") = none := by decide
example : convert_date_value (.vstr "13/14/2024") = none := by decide

/-! ### DocType field metadata

`frappe.get_meta(doctype).get_field(name)` is modelled as lookup in a list
of field definitions; this is the external persistence-layer contract of
spec section 6 (per field: fieldname, fieldtype, options). -/

structure DocField where
  fieldname : String
  fieldtype : String
  options : Option String
  label : Option String
  deriving DecidableEq, Repr

def getField (meta : List DocField) (fname : String) : Option DocField :=
  meta.find? (fun f => f.fieldname == fname)

/-! ### Select normalization -/

/-- `PolicyCreationService._get_select_field_default` (lines 516-543). -/
def get_select_field_default (field_name field_label : Option String) : Option String :=
  let defaults : List (String × String) := [("customer_title", "Mr."), ("title", "Mr.")]
  let fieldKey : Option String :=
    match field_name with
    | some s => if s.isEmpty then none else some (pyLower s)
    | none => none
  let labelKey : Option String :=
    match field_label with
    | some s => if s.isEmpty then none else some (pyLower s)
    | none => none
  match fieldKey.bind (fun k => (defaults.find? (fun p => p.1 == k)).map (·.2)) with
  | some v => some v
  | none => labelKey.bind (fun k => (defaults.find? (fun p => p.1 == k)).map (·.2))

/-- Python substring test `a in b` on character lists. -/
def isInfixOfL (a : List Char) : List Char → Bool
  | [] => a.isEmpty
  | c :: rest => a.isPrefixOf (c :: rest) || isInfixOfL a rest

/-- `PolicyCreationService.normalize_select_value` (lines 545-582).
`Except` threads the `AttributeError` raised by `value.lower()` when a
non-string value meets a nonempty option list; the caller catches it. -/
def normalize_select_value (v : PyVal) (options : Option String)
    (field_name field_label : Option String) : Except Unit (Option String) :=
  let optFalsy : Bool := match options with | none => true | some s => s.isEmpty
  if !pyTruthy v || optFalsy then .ok none
  else if isNAText (pyStr v) then .ok none
  else
    let availableOptions :=
      ((pySplit (options.getD "") '\n').map pyStrip).filter (fun o => !o.isEmpty)
    match v with
    | .vstr s =>
      if availableOptions.contains s then .ok (some s)
      else
        match availableOptions.find? (fun opt => pyLower opt == pyLower s) with
        | some opt => .ok (some opt)
        | none =>
          match availableOptions.find? (fun opt =>
              isInfixOfL (pyLower s).toList (pyLower opt).toList ||
              isInfixOfL (pyLower opt).toList (pyLower s).toList) with
          | some opt => .ok (some opt)
          | none =>
            match get_select_field_default field_name field_label with
            | some d => if d.isEmpty then .ok none else .ok (some d)
            | none => .ok none
    | _ =>
      if availableOptions.isEmpty then
        match get_select_field_default field_name field_label with
        | some d => if d.isEmpty then .ok none else .ok (some d)
        | none => .ok none
      else .error ()

/-! ### `convert_field_value` (policy_creation_service.py lines 430-464) -/

def convert_field_value (meta : List DocField) (field_name : String) (v : PyVal) :
    Option PyVal :=
  if naGuard v then none
  else
    match getField meta field_name with
    | none => some v
    | some field =>
      if field.fieldtype == "Date" then
        (convert_date_value v).map (fun t => .vdate t.1 t.2.1 t.2.2)
      else if field.fieldtype == "Datetime" then
        (convert_datetime_value v).map (fun t => .vdatetime t.1 t.2.1 t.2.2)
      else if field.fieldtype == "Float" then some (.vfloat (flt v))
      else if field.fieldtype == "Int" then some (.vint (cint v))
      else if field.fieldtype == "Check" then some (.vbool (pyTruthy v))
      else if field.fieldtype == "Select" then
        match normalize_select_value v field.options (some field_name) field.label with
        | .error _ => none
        | .ok r => r.map .vstr
      else some (.vstr (cstr v))

/-- Does a converted value inhabit the declared destination type? -/
def matchesFieldType (fieldtype : String) (v : PyVal) : Bool :=
  if fieldtype == "Date" then (match v with | .vdate _ _ _ => true | _ => false)
  else if fieldtype == "Datetime" then (match v with | .vdatetime _ _ _ => true | _ => false)
  else if fieldtype == "Float" then (match v with | .vfloat _ => true | _ => false)
  else if fieldtype == "Int" then (match v with | .vint _ => true | _ => false)
  else if fieldtype == "Check" then (match v with | .vbool _ => true | _ => false)
  else (match v with | .vstr _ => true | _ => false)

/-! ### Python dicts as association lists

Lookup returns the current binding; assignment updates in place when the
key exists and appends otherwise (insertion order preserved, like a Python
dict). -/

def dictGet {α : Type} (m : List (String × α)) (k : String) : Option α :=
  (m.find? (fun p => p.1 == k)).map (·.2)

def dictContains {α : Type} (m : List (String × α)) (k : String) : Bool :=
  (m.find? (fun p => p.1 == k)).isSome

def dictSet {α : Type} (m : List (String × α)) (k : String) (v : α) :
    List (String × α) :=
  if dictContains m k then m.map (fun p => if p.1 == k then (k, v) else p)
  else m ++ [(k, v)]

def dictSetdefault {α : Type} (m : List (String × α)) (k : String) (v : α) :
    List (String × α) :=
  if dictContains m k then m else m ++ [(k, v)]

/-! ### Field mapping (`PolicyCreationService`, lines 348-427) -/

/-- `PolicyCreationService._build_normalized_mapping`: every original key,
plus its normalized form when not already present. -/
def build_normalized_mapping (fm : List (String × String)) : List (String × String) :=
  fm.foldl (fun acc p =>
    dictSetdefault (dictSet acc p.1 p.2) (normalize_key p.1) p.2) []

/-- Truthiness of `dict.get` results (`if not policy_field_name`). -/
def optStrTruthy : Option String → Bool
  | some s => !s.isEmpty
  | none => false

/-- The two-tier resolution of the mapping loop: direct lookup, then
lookup of the normalized key. -/
def resolveField (nm : List (String × String)) (rawKey : String) : Option String :=
  let p1 := dictGet nm rawKey
  if optStrTruthy p1 then p1 else dictGet nm (normalize_key rawKey)

/-- The skip guard of the mapping loop:
`raw_value is None or str(raw_value).strip() == ""`. -/
def skippedValue (v : PyVal) : Bool :=
  (match v with | .vnone => true | _ => false) || pyStrip (pyStr v) == ""

/-- A bag entry survives the skip guard. -/
def processedEntry (kv : String × PyVal) : Bool := !skippedValue kv.2

structure MappingResult where
  mapped_count : Nat
  unmapped_fields : List String
  suggestions : List (String × List String)
  record : List (String × PyVal)
  deriving Repr

/-- One iteration of the first-pass loop of
`PolicyCreationService.map_fields_dynamically`.  `closeMatches` abstracts
`difflib.get_close_matches` (its output never affects the record or the
counters). -/
def mfdStep (closeMatches : String → List String → List String)
    (meta : List DocField) (nm : List (String × String))
    (st : MappingResult) (kv : String × PyVal) : MappingResult :=
  let rawKey := kv.1
  let rawValue := kv.2
  if skippedValue rawValue then st
  else
    let resolved := resolveField nm rawKey
    if optStrTruthy resolved then
      let fieldName := resolved.getD ""
      match convert_field_value meta fieldName rawValue with
      | some u =>
        { st with record := dictSet st.record fieldName u,
                  mapped_count := st.mapped_count + 1 }
      | none => { st with unmapped_fields := st.unmapped_fields ++ [rawKey] }
    else
      let cands := closeMatches (normalize_key rawKey) (nm.map (·.1))
      { st with unmapped_fields := st.unmapped_fields ++ [rawKey],
                suggestions :=
                  if cands.isEmpty then st.suggestions
                  else st.suggestions ++ [(rawKey, cands)] }

/-- `PolicyCreationService.map_fields_dynamically` (lines 368-427): no
protected-field handling appears in this method. -/
def map_fields_dynamically (closeMatches : String → List String → List String)
    (meta : List DocField) (parsedData : List (String × PyVal))
    (fieldMapping : List (String × String)) (record : List (String × PyVal)) :
    MappingResult :=
  let nm := build_normalized_mapping fieldMapping
  parsedData.foldl (mfdStep closeMatches meta nm)
    { mapped_count := 0, unmapped_fields := [], suggestions := [], record := record }

/-- Is a destination field already set to a truthy value? -/
def isSetField (rec : List (String × PyVal)) (f : String) : Bool :=
  match dictGet rec f with
  | some v => pyTruthy v
  | none => false

structure MappingResultP where
  mapped_count : Nat
  unmapped_fields : List String
  protected_count : Nat
  record : List (String × PyVal)
  deriving Repr

/-- Modelled from the spec: `FieldMappingService.map_fields_dynamically`,
the protected-fields-aware mapper that `create_policy_record`
(policy_creation_service.py lines 82-85) and the Motor/Health
`populate_fields_from_policy_document` methods invoke with a
`protected_fields` argument, is not among the provided sources (only its
callers and the protected-field list are).  Spec section 4.3: skip
null/blank values; resolve keys exactly, then by normalized key; when the
destination field is protected and already set, leave it unchanged (the
callers read the skip count as `protected_count`); otherwise convert and
assign non-null conversions, recording null conversions and unresolved
keys as unmapped. -/
def map_fields_dynamically_protected (meta : List DocField)
    (parsedData : List (String × PyVal)) (fieldMapping : List (String × String))
    (record : List (String × PyVal)) (protectedFields : List String) :
    MappingResultP :=
  let nm := build_normalized_mapping fieldMapping
  parsedData.foldl (fun st kv =>
    let rawKey := kv.1
    let rawValue := kv.2
    if skippedValue rawValue then st
    else
      let resolved := resolveField nm rawKey
      if optStrTruthy resolved then
        let fieldName := resolved.getD ""
        if protectedFields.contains fieldName && isSetField st.record fieldName then
          { st with protected_count := st.protected_count + 1 }
        else
          match convert_field_value meta fieldName rawValue with
          | some u =>
            { st with record := dictSet st.record fieldName u,
                      mapped_count := st.mapped_count + 1 }
          | none => { st with unmapped_fields := st.unmapped_fields ++ [rawKey] }
      else { st with unmapped_fields := st.unmapped_fields ++ [rawKey] })
    { mapped_count := 0, unmapped_fields := [], protected_count := 0, record := record }

/-- `PolicyCreationService._get_protected_fields` (lines 116-152). -/
def get_protected_fields : List String :=
  ["customer_code", "customer_name", "customer_group",
   "insurance_company_branch", "insurer_name", "insurer_city",
   "insurer_branch", "insurer_branch_code",
   "department", "policy_type", "coverage_type", "old_control_number",
   "branch_code", "biz_type", "customer_vertical", "rm_code", "csc_code",
   "tc_code", "ref_code", "customer_pan", "customer_gst", "category",
   "portability"]

/-! ### Alias registry (`PolicyReaderSettings`, policy_reader_settings.py)

The per-policy-type alias maps live as a serialized dict on the settings
singleton; they are rebuilt from the literal default tables below
(`build_default_field_mapping`, lines 86-250) and mutated by `add_alias`
(lines 654-670) and `bulk_add_aliases` (lines 672-708). -/

def motorAliasTable : List (String × List String) :=
  [("policy_no", ["Policy Number", "PolicyNumber", "Policy Num", "PolicyNo", "policyNo", "policyNumber", "policy_no", "Policy_No"]),
   ("policy_type", ["PolicyType", "policyType", "policy_type", "Policy_Type"]),
   ("policy_issuance_date", ["Policy Issuance Date", "Issuance Date", "PolicyIssuanceDate", "policyIssuanceDate", "policy_issuance_date", "Policy_Issuance_Date"]),
   ("policy_start_date", ["Policy Start Date", "Start Date", "PolicyStartDate", "From Date", "policyStartDate", "policy_start_date", "Policy_Start_Date"]),
   ("policy_expiry_date", ["Policy Expiry Date", "Expiry Date", "PolicyExpiryDate", "To Date", "End Date", "policyExpiryDate", "policy_expiry_date", "Policy_Expiry_Date"]),
   ("policy_biz_type", ["PolicyBiz Type", "policyBizType", "PolicyBiz_Type"]),
   ("new_renewal", ["New/Renewal", "newRenewal", "New_Renewal"]),
   ("vehicle_no", ["Vehicle Number", "VehicleNumber", "VehicleNo", "Registration Number", "Registration No", "Registration no", "Registration no.", "Registration No.", "Regn No", "Regn No.", "Regn. No", "Regn. No.", "Reg No", "Reg No.", "Reg. No", "Reg. No.", "vehicleNo", "vehicleNumber", "Vehicle_No"]),
   ("make", ["Make", "Vehicle Make", "make"]),
   ("model", ["Model", "Vehicle Model", "model"]),
   ("variant", ["Variant", "Vehicle Variant", "variant"]),
   ("year_of_man", ["Year of Manufacture", "Manufacturing Year", "YearOfManufacture", "Year", "Model Year", "yearOfManufacture", "Year_of_Manufacture", "Year of Mfg", "Year Of Manufacturing", "Year of Man"]),
   ("chasis_no", ["Chassis Number", "ChassisNumber", "Chasis Number", "ChasisNumber", "Chassis No", "Chasis No", "chasisNo", "chassisNo", "ChasisNo", "chasis_no", "Chasis_No"]),
   ("engine_no", ["Engine Number", "EngineNumber", "Engine No", "EngineNo", "engineNo", "engine_no", "Engine_No"]),
   ("cc", ["CC", "Engine Capacity", "Cubic Capacity", "cc", "CC/KW", "Cubic Capcity", "Cubic Capacity/Kilowatt", "Cubic Capcity/Kilowatt", "CCIKW"]),
   ("fuel", ["Fuel", "Fuel Type", "FuelType", "fuel"]),
   ("sum_insured", ["Sum Insured", "SumInsured", "Insured Amount", "Coverage Amount", "sumInsured", "sum_insured", "Sum_Insured", "Insured Declared Value", "IDV", "Total Value"]),
   ("net_od_premium", ["Net Premium", "NetPremium", "Net OD Premium", "NetODPremium", "OD Premium", "netOdPremium", "net_od_premium", "Net_OD_Premium", "Total OD Premium", "Calculated OD Premium"]),
   ("tp_premium", ["TP Premium", "TPPremium", "Third Party Premium", "tpPremium", "tp_premium", "TP_Premium"]),
   ("gst", ["GST", "Tax", "Service Tax", "gst"]),
   ("ncb", ["NCB", "No Claim Bonus", "ncb"]),
   ("rto_code", ["RTO Code", "RTOCode", "RTO", "rtoCode", "RTO_Code"]),
   ("vehicle_category", ["Vehicle Category", "VehicleCategory", "Vehicle Class", "Category", "vehicleCategory", "Vehicle_Category"]),
   ("passenger_gvw", ["Passenger GVW", "PassengerGVW", "GVW", "passengerGvw", "Passenger_GVW"]),
   ("customer_code", ["Customer Code", "CustomerCode", "customerCode", "customer_code", "Customer_Code"]),
   ("insurer_branch_code", ["Insurer Branch Code", "InsurerBranchCode", "insurerBranchCode", "insurer_branch_code", "Insurer_Branch_Code"]),
   ("payment_mode", ["Payment Mode", "PaymentMode", "paymentMode", "payment_mode", "Payment_Mode"]),
   ("bank_name", ["Bank Name", "BankName", "bankName", "bank_name", "Bank_Name"]),
   ("payment_transaction_no", ["Payment Transaction No", "PaymentTransactionNo", "paymentTransactionNo", "payment_transaction_no", "Payment_Transaction_No"]),
   ("branch_code", ["Branch Code", "BranchCode", "branchCode", "branch_code", "Branch_Code"]),
   ("customer_group", ["Customer Group", "CustomerGroup", "customerGroup", "customer_group", "Customer_Group"]),
   ("customer_title", ["Customer Title", "CustomerTitle", "customerTitle", "customer_title", "Customer_Title"]),
   ("customer_name", ["Customer Name", "CustomerName", "customerName", "customer_name", "Customer_Name"]),
   ("customer_id", ["Customer ID", "CustomerID", "customerId", "Customer_ID"]),
   ("mobile_no", ["Mobile Number", "MobileNumber", "Mobile No", "MobileNo", "mobile_no", "Mobile_Number"]),
   ("email_id", ["Email ID", "EmailID", "Email", "email_id", "Email_ID"]),
   ("dob_doi", ["DOB/DOI", "Date of Birth", "DateOfBirth", "DOB", "dob_doi", "DOB_DOI"]),
   ("gender", ["Gender", "gender"]),
   ("cse_id", ["CSE ID", "CSEID", "cse_id", "CSE_ID"]),
   ("rm_id", ["RM ID", "RMID", "rm_id", "RM_ID"]),
   ("old_control_number", ["Old Control Number", "OldControlNumber", "old_control_number", "Old_Control_Number"])]

def healthInsuredBlock (i : String) : List (String × List String) :=
  [("insured_" ++ i ++ "_relation",
    ["INSURED" ++ i ++ "RELATION", "Insured" ++ i ++ "Relation",
     "Insured " ++ i ++ " Relation", "insured_" ++ i ++ "_relation",
     "insured" ++ i ++ "relation"]),
   ("insured_" ++ i ++ "_emp_code",
    ["INSURED" ++ i ++ "EMPCODE", "Insured" ++ i ++ "EmpCode",
     "INSURED" ++ i ++ "FAMILYCODE", "Insured" ++ i ++ "FamilyCode",
     "insured_" ++ i ++ "_emp_code", "insured" ++ i ++ "empcode"]),
   ("insured_" ++ i ++ "_name",
    ["INSURED" ++ i ++ "NAME", "Insured" ++ i ++ "Name",
     "Insured " ++ i ++ " Name", "insured_" ++ i ++ "_name",
     "insured" ++ i ++ "name"]),
   ("insured_" ++ i ++ "_gender",
    ["INSURED" ++ i ++ "GENDER", "Insured" ++ i ++ "Gender",
     "Insured " ++ i ++ " Gender", "insured_" ++ i ++ "_gender",
     "insured" ++ i ++ "gender"]),
   ("insured_" ++ i ++ "_dob",
    ["INSURED" ++ i ++ "DOB", "Insured" ++ i ++ "DOB",
     "Insured " ++ i ++ " DOB", "insured_" ++ i ++ "_dob",
     "insured" ++ i ++ "dob"]),
   ("insured_" ++ i ++ "_sum_insured",
    ["INSURED" ++ i ++ "SUMINSURED", "Insured" ++ i ++ "SumInsured",
     "Insured " ++ i ++ " Sum Insured", "insured_" ++ i ++ "_sum_insured",
     "insured" ++ i ++ "suminsured"])]

def healthAliasTable : List (String × List String) :=
  [("customer_code", ["Customer Code", "CustomerCode", "customer_code"]),
   ("pos_policy", ["Pos Policy", "POS Policy", "pos_policy"]),
   ("policy_biz_type", ["PolicyBiz Type", "Policy Biz Type", "PolicyBizType", "policy_biz_type"]),
   ("insurer_branch_code", ["Insurer Branch Code", "InsurerBranchCode", "insurer_branch_code"]),
   ("policy_issuance_date", ["PolicyIssuanceDate", "Policy Issuance Date", "Issuance Date", "policy_issuance_date"]),
   ("policy_start_date", ["PolicyStartDate", "Policy Start Date", "Start Date", "From Date", "policy_start_date"]),
   ("policy_expiry_date", ["PolicyExpiryDate", "Policy Expiry Date", "Expiry Date", "To Date", "End Date", "policy_expiry_date"]),
   ("policy_type", ["Policy Type", "PolicyType", "policy_type"]),
   ("policy_no", ["PolicyNo", "Policy No", "Policy Number", "PolicyNumber", "policy_no"]),
   ("plan_name", ["Plan Name", "PlanName", "plan_name"]),
   ("is_renewable", ["IsRenewable", "Is Renewable", "Renewable", "is_renewable"]),
   ("prev_policy", ["PrevPolicy", "Previous Policy", "Prev Policy", "prev_policy"])] ++
  healthInsuredBlock "1" ++ healthInsuredBlock "2" ++ healthInsuredBlock "3" ++
  healthInsuredBlock "4" ++ healthInsuredBlock "5" ++ healthInsuredBlock "6" ++
  healthInsuredBlock "7" ++ healthInsuredBlock "8" ++
  [("sum_insured", ["Sum Insured", "SumInsured", "Insured Amount", "Coverage Amount", "sum_insured"]),
   ("net_od_premium", ["Net/OD Premium", "Net Premium", "NetPremium", "Premium Amount", "net_od_premium"]),
   ("gst", ["GST", "Tax", "Service Tax", "gst"]),
   ("stamp_duty", ["StampDuty", "Stamp Duty", "stamp_duty"]),
   ("payment_mode", ["Payment Mode", "PaymentMode", "payment_mode"]),
   ("bank_name", ["Bank Name", "BankName", "bank_name"]),
   ("payment_transaction_no", ["Payment TransactionNo", "Payment Transaction No", "Transaction No", "payment_transaction_no"]),
   ("remarks", ["Remarks", "Comments", "Notes", "remarks"]),
   ("policy_status", ["Policy Status", "PolicyStatus", "Status", "policy_status"])]

/-- `PolicyReaderSettings.build_default_field_mapping` (lines 86-250):
insert the canonical field as a key mapping to itself, then every alias as
a key mapping to the canonical field, in table order. -/
def buildFromTable (T : List (String × List String)) : List (String × String) :=
  T.foldl (fun m p =>
    p.2.foldl (fun m a => dictSet m a p.1) (dictSet m p.1 p.1)) []

def build_default_field_mapping (policyType : String) : List (String × String) :=
  buildFromTable
    (if pyLower policyType == "motor" then motorAliasTable
     else if pyLower policyType == "health" then healthAliasTable
     else [])

/-- `PolicyReaderSettings.add_alias` (lines 654-670) acting on the parsed
alias map: `mapping.setdefault(canonical, canonical)` then
`mapping[alias] = canonical`.  With a falsy canonical or alias the method
throws before mutating, leaving the map unchanged. -/
def add_alias (m : List (String × String)) (canonical aliasKey : String) :
    List (String × String) :=
  if canonical.isEmpty || aliasKey.isEmpty then m
  else dictSet (dictSetdefault m canonical canonical) aliasKey canonical

/-- `PolicyReaderSettings.bulk_add_aliases` (lines 672-708), payload shape
`alias -> canonical` (the branch taken when the first payload value is not
a list): for each pair with truthy canonical,
`mapping.setdefault(canonical, canonical); mapping[alias] = canonical`. -/
def bulk_add_aliases_alias_to_canonical (m : List (String × String))
    (payload : List (String × String)) : List (String × String) :=
  payload.foldl (fun m p =>
    if p.2.isEmpty then m
    else dictSet (dictSetdefault m p.2 p.2) p.1 p.2) m

/-- `PolicyReaderSettings.bulk_add_aliases`, payload shape
`canonical -> [aliases]` (first payload value is a list):
`mapping.setdefault(canonical, canonical)` then each truthy alias is
inserted. -/
def bulk_add_aliases_canonical_to_aliases (m : List (String × String))
    (payload : List (String × List String)) : List (String × String) :=
  payload.foldl (fun m p =>
    p.2.foldl (fun m a => if a.isEmpty then m else dictSet m a p.1)
      (dictSetdefault m p.1 p.1)) m

/-- The self-mapping invariant of spec section 3: every canonical field
name (that is, every value the alias map points at) is present as a key
mapping to itself; `resolve` on a canonical field is the identity. -/
def SelfMapInv (m : List (String × String)) : Prop :=
  ∀ p ∈ m, dictGet m p.2 = some p.2

instance (m : List (String × String)) : Decidable (SelfMapInv m) :=
  inferInstanceAs (Decidable (∀ p ∈ m, dictGet m p.2 = some p.2))

/-! ### Dictionary lemmas -/

theorem dictGet_cons {α : Type} (p : String × α) (m : List (String × α)) (k : String) :
    dictGet (p :: m) k = if p.1 = k then some p.2 else dictGet m k := by
  unfold dictGet
  by_cases h : p.1 = k
  · rw [List.find?_cons_of_pos _ (by simpa using h), if_pos h]
    rfl
  · rw [List.find?_cons_of_neg _ (by simpa using h), if_neg h]

theorem dictContains_cons {α : Type} (p : String × α) (m : List (String × α)) (k : String) :
    dictContains (p :: m) k = (p.1 = k || dictContains m k) := by
  unfold dictContains
  by_cases h : p.1 = k
  · rw [List.find?_cons_of_pos _ (by simpa using h)]
    simp [h]
  · rw [List.find?_cons_of_neg _ (by simpa using h)]
    simp [h]

theorem dictContains_iff_isSome {α : Type} (m : List (String × α)) (k : String) :
    dictContains m k = (dictGet m k).isSome := by
  unfold dictContains dictGet
  cases m.find? (fun p => p.1 == k) <;> rfl

theorem not_contains_forall {α : Type} {m : List (String × α)} {k : String}
    (h : dictContains m k = false) : ∀ q ∈ m, q.1 ≠ k := by
  intro q hq
  unfold dictContains at h
  cases hf : m.find? (fun p => p.1 == k) with
  | none =>
    have := List.find?_eq_none.mp hf q hq
    simpa using this
  | some w => rw [hf] at h; simp at h

theorem dictGet_update_self {α : Type} {m : List (String × α)} {k : String} (v : α)
    (hc : dictContains m k = true) :
    dictGet (m.map (fun p => if p.1 == k then (k, v) else p)) k = some v := by
  induction m with
  | nil => simp [dictContains] at hc
  | cons p m ih =>
    rw [dictContains_cons] at hc
    by_cases h : p.1 = k
    · have hb : (p.1 == k) = true := by simpa using h
      simp only [List.map_cons, hb, if_true]
      rw [dictGet_cons]
      simp
    · have hb : (p.1 == k) = false := by simpa using h
      simp only [List.map_cons, hb, Bool.false_eq_true, if_false]
      rw [dictGet_cons, if_neg h]
      apply ih
      simpa [h] using hc

theorem dictGet_append_single_self {α : Type} {m : List (String × α)} {k : String} (v : α)
    (hc : dictContains m k = false) :
    dictGet (m ++ [(k, v)]) k = some v := by
  induction m with
  | nil => simp [dictGet]
  | cons p m ih =>
    rw [dictContains_cons] at hc
    simp only [Bool.or_eq_false_iff, decide_eq_false_iff_not] at hc
    rw [List.cons_append, dictGet_cons, if_neg hc.1]
    exact ih hc.2

theorem dictGet_dictSet_self {α : Type} (m : List (String × α)) (k : String) (v : α) :
    dictGet (dictSet m k v) k = some v := by
  unfold dictSet
  split
  · exact dictGet_update_self v (by assumption)
  · rename_i hc
    exact dictGet_append_single_self v (by simpa using hc)

theorem dictGet_update_ne {α : Type} (m : List (String × α)) {k kx : String} (v : α)
    (h : kx ≠ k) :
    dictGet (m.map (fun p => if p.1 == k then (k, v) else p)) kx = dictGet m kx := by
  induction m with
  | nil => rfl
  | cons p m ih =>
    by_cases hp : p.1 = k
    · have hb : (p.1 == k) = true := by simpa using hp
      simp only [List.map_cons, hb, if_true]
      rw [dictGet_cons, dictGet_cons]
      rw [if_neg (show ¬ (k, v).1 = kx from fun hh => h (hh.symm)),
        if_neg (show ¬ p.1 = kx from fun hh => h ((hp ▸ hh).symm))]
      exact ih
    · have hb : (p.1 == k) = false := by simpa using hp
      simp only [List.map_cons, hb, Bool.false_eq_true, if_false]
      rw [dictGet_cons, dictGet_cons]
      split
      · rfl
      · exact ih

theorem dictGet_append_ne {α : Type} (m : List (String × α)) {k kx : String} (v : α)
    (h : kx ≠ k) : dictGet (m ++ [(k, v)]) kx = dictGet m kx := by
  induction m with
  | nil =>
    simp only [List.nil_append]
    rw [dictGet_cons, if_neg (fun hh => h hh.symm)]
  | cons p m ih =>
    rw [List.cons_append, dictGet_cons, dictGet_cons]
    split
    · rfl
    · exact ih

theorem dictGet_dictSet_ne {α : Type} (m : List (String × α)) {k kx : String} (v : α)
    (h : kx ≠ k) : dictGet (dictSet m k v) kx = dictGet m kx := by
  unfold dictSet
  split
  · exact dictGet_update_ne m v h
  · exact dictGet_append_ne m v h

theorem mem_dictSet {α : Type} {m : List (String × α)} {k : String} {v : α}
    {p : String × α} (h : p ∈ dictSet m k v) :
    p = (k, v) ∨ (p ∈ m ∧ p.1 ≠ k) := by
  unfold dictSet at h
  split at h
  · rw [List.mem_map] at h
    obtain ⟨q, hq, hqe⟩ := h
    by_cases hk : q.1 = k
    · rw [if_pos (by simpa using hk)] at hqe
      exact Or.inl hqe.symm
    · rw [if_neg (by simpa using hk)] at hqe
      exact Or.inr ⟨hqe ▸ hq, hqe ▸ hk⟩
  · rename_i hc
    rw [List.mem_append] at h
    rcases h with h | h
    · exact Or.inr ⟨h, not_contains_forall (by simpa using hc) p h⟩
    · simpa using Or.inl (by simpa using h)

theorem mem_dictSetdefault {α : Type} {m : List (String × α)} {k : String} {v : α}
    {p : String × α} (h : p ∈ dictSetdefault m k v) :
    p ∈ m ∨ p = (k, v) := by
  unfold dictSetdefault at h
  split at h
  · exact Or.inl h
  · rw [List.mem_append] at h
    rcases h with h | h
    · exact Or.inl h
    · exact Or.inr (by simpa using h)

theorem dictGet_dictSetdefault_ne {α : Type} (m : List (String × α)) {k kx : String}
    (v : α) (h : kx ≠ k) : dictGet (dictSetdefault m k v) kx = dictGet m kx := by
  unfold dictSetdefault
  split
  · rfl
  · exact dictGet_append_ne m v h

theorem dictGet_dictSetdefault_self {α : Type} (m : List (String × α)) (k : String)
    (v : α) :
    dictGet (dictSetdefault m k v) k = some ((dictGet m k).getD v) := by
  unfold dictSetdefault
  split
  · rename_i hc
    rw [dictContains_iff_isSome] at hc
    cases hg : dictGet m k with
    | none => rw [hg] at hc; simp at hc
    | some w => simp
  · rename_i hc
    have hc' : dictContains m k = false := by simpa using hc
    rw [dictGet_append_single_self v hc']
    rw [dictContains_iff_isSome] at hc'
    cases hg : dictGet m k with
    | none => simp
    | some w => rw [hg] at hc'; simp at hc'

/-! ### The self-mapping invariant of the default tables

A table is collision-free when no alias string equals the canonical name
of a different field.  Both default tables satisfy this (checked by
`decide`), and collision-freedom makes the built map satisfy the
self-mapping invariant. -/

def tableCCF (T : List (String × List String)) : Bool :=
  T.all (fun p => p.2.all (fun a => !(T.any (fun q => q.1 == a)) || a == p.1))

/-- Build-time invariant: self-mapping plus the fact that every self-mapped
key is one of the table canonicals `C`. -/
def BuildInv (C : List String) (m : List (String × String)) : Prop :=
  SelfMapInv m ∧ ∀ k, dictGet m k = some k → k ∈ C

theorem buildInv_insert_canonical {C : List String} {m : List (String × String)}
    {c : String} (hInv : BuildInv C m) (hc : c ∈ C) :
    BuildInv C (dictSet m c c) ∧ dictGet (dictSet m c c) c = some c ∧
      (∀ k, dictGet m k = some k → dictGet (dictSet m c c) k = some k) := by
  have hself : dictGet (dictSet m c c) c = some c := dictGet_dictSet_self m c c
  refine ⟨⟨?_, ?_⟩, hself, ?_⟩
  · intro p hp
    rcases mem_dictSet hp with hpe | ⟨hpm, hpne⟩
    · rw [hpe]
      exact hself
    · have hv := hInv.1 p hpm
      by_cases hvc : p.2 = c
      · rw [hvc]; exact hself
      · rw [dictGet_dictSet_ne m c hvc]
        exact hv
  · intro k hk
    by_cases hkc : k = c
    · exact hkc ▸ hc
    · rw [dictGet_dictSet_ne m c hkc] at hk
      exact hInv.2 k hk
  · intro k hk
    by_cases hkc : k = c
    · rw [hkc]; exact hself
    · rw [dictGet_dictSet_ne m c hkc]
      exact hk

theorem buildInv_insert_alias {C : List String} {m : List (String × String)}
    {c a : String} (hInv : BuildInv C m) (hc : c ∈ C)
    (hcc : dictGet m c = some c) (hCCF : a ∈ C → a = c) :
    BuildInv C (dictSet m a c) ∧ dictGet (dictSet m a c) c = some c ∧
      (∀ k, dictGet m k = some k → dictGet (dictSet m a c) k = some k) := by
  have hselfc : dictGet (dictSet m a c) c = some c := by
    by_cases hca : c = a
    · rw [hca]
      exact dictGet_dictSet_self m a a
    · rw [dictGet_dictSet_ne m c hca]
      exact hcc
  refine ⟨⟨?_, ?_⟩, hselfc, ?_⟩
  · intro p hp
    rcases mem_dictSet hp with hpe | ⟨hpm, hpne⟩
    · rw [hpe]; exact hselfc
    · have hv := hInv.1 p hpm
      by_cases hvc : p.2 = c
      · rw [hvc]; exact hselfc
      · by_cases hva : p.2 = a
        · have hva' : dictGet m a = some a := by rw [← hva]; exact hv
          exact absurd (hva.trans (hCCF (hInv.2 a hva'))) hvc
        · rw [dictGet_dictSet_ne m c hva]
          exact hv
  · intro k hk
    by_cases hka : k = a
    · have h1 : dictGet (dictSet m a c) a = some c := dictGet_dictSet_self m a c
      rw [hka, h1] at hk
      have hca : c = a := by simpa using hk
      rw [hka, ← hca]
      exact hc
    · rw [dictGet_dictSet_ne m c hka] at hk
      exact hInv.2 k hk
  · intro k hk
    by_cases hka : k = a
    · have haC : a ∈ C := hInv.2 a (hka ▸ hk)
      have hac : a = c := hCCF haC
      rw [hka, dictGet_dictSet_self m a c, hac]
    · rw [dictGet_dictSet_ne m c hka]
      exact hk

theorem buildInv_fold_aliases {C : List String} {c : String} (as : List String) :
    ∀ m, BuildInv C m → c ∈ C → dictGet m c = some c →
    (∀ a ∈ as, a ∈ C → a = c) →
    BuildInv C (as.foldl (fun m a => dictSet m a c) m) ∧
      dictGet (as.foldl (fun m a => dictSet m a c) m) c = some c ∧
      (∀ k, dictGet m k = some k →
        dictGet (as.foldl (fun m a => dictSet m a c) m) k = some k) := by
  induction as with
  | nil => exact fun m h1 h2 h3 _ => ⟨h1, h3, fun _ hk => hk⟩
  | cons a as ih =>
    intro m h1 h2 h3 h4
    obtain ⟨j1, j2, j3⟩ :=
      buildInv_insert_alias h1 h2 h3 (h4 a (List.mem_cons_self _ _))
    obtain ⟨r1, r2, r3⟩ := ih (dictSet m a c) j1 h2 j2
      (fun x hx => h4 x (List.mem_cons_of_mem _ hx))
    exact ⟨r1, r2, fun k hk => r3 k (j3 k hk)⟩

/-- The per-entry step of `buildFromTable`. -/
def buildStep (m : List (String × String)) (p : String × List String) :
    List (String × String) :=
  p.2.foldl (fun m a => dictSet m a p.1) (dictSet m p.1 p.1)

theorem buildFromTable_eq_foldl (T : List (String × List String)) :
    buildFromTable T = T.foldl buildStep [] := rfl

theorem buildInv_fold_table {C : List String} (T : List (String × List String)) :
    ∀ m, BuildInv C m →
    (∀ p ∈ T, p.1 ∈ C ∧ ∀ a ∈ p.2, a ∈ C → a = p.1) →
    BuildInv C (T.foldl buildStep m) ∧
      (∀ k, dictGet m k = some k → dictGet (T.foldl buildStep m) k = some k) ∧
      (∀ p ∈ T, dictGet (T.foldl buildStep m) p.1 = some p.1) := by
  induction T with
  | nil => exact fun m h1 _ => ⟨h1, fun _ hk => hk, by simp⟩
  | cons p T ih =>
    intro m h1 h2
    have hp := h2 p (List.mem_cons_self _ _)
    obtain ⟨j1, j2, j3⟩ := buildInv_insert_canonical h1 hp.1
    obtain ⟨f1, f2, f3⟩ := buildInv_fold_aliases p.2 _ j1 hp.1 j2 hp.2
    obtain ⟨r1, r2, r3⟩ := ih (buildStep m p) f1
      (fun q hq => h2 q (List.mem_cons_of_mem _ hq))
    refine ⟨r1, ?_, ?_⟩
    · intro k hk
      exact r2 k (f3 k (j3 k hk))
    · intro q hq
      rcases List.mem_cons.mp hq with hqe | hqm
      · subst hqe
        exact r2 q.1 f2
      · exact r3 q hqm

theorem selfMapInv_buildFromTable {T : List (String × List String)}
    (h : tableCCF T = true) :
    SelfMapInv (buildFromTable T) ∧
      ∀ p ∈ T, dictGet (buildFromTable T) p.1 = some p.1 := by
  have hinit : BuildInv (T.map (·.1)) [] := by
    constructor
    · intro p hp; simp at hp
    · intro k hk; simp [dictGet] at hk
  have hcond : ∀ p ∈ T, p.1 ∈ T.map (·.1) ∧
      ∀ a ∈ p.2, a ∈ T.map (·.1) → a = p.1 := by
    intro p hp
    refine ⟨List.mem_map_of_mem _ hp, ?_⟩
    intro a ha haC
    rw [tableCCF, List.all_eq_true] at h
    have h1 := h p hp
    rw [List.all_eq_true] at h1
    have h2 := h1 a ha
    rw [List.mem_map] at haC
    obtain ⟨q, hq, hqa⟩ := haC
    have hany : T.any (fun q => q.1 == a) = true := by
      rw [List.any_eq_true]
      exact ⟨q, hq, by simpa using hqa⟩
    rw [hany] at h2
    simpa using h2.symm
  obtain ⟨r1, _, r3⟩ := buildInv_fold_table T [] hinit hcond
  rw [buildFromTable_eq_foldl]
  exact ⟨r1.1, r3⟩

set_option maxRecDepth 10000 in
theorem motor_tableCCF : tableCCF motorAliasTable = true := by decide

set_option maxRecDepth 10000 in
theorem health_tableCCF : tableCCF healthAliasTable = true := by decide

/-! ### Preservation of the self-mapping invariant by registry mutations -/

/-- The elementary insertion both mutation paths perform:
`mapping.setdefault(canonical, canonical)` then
`mapping[alias] = canonical`. -/
def addPair (m : List (String × String)) (aliasKey canonical : String) :
    List (String × String) :=
  dictSet (dictSetdefault m canonical canonical) aliasKey canonical

theorem addPair_facts {m : List (String × String)} {a c : String}
    (h1 : SelfMapInv m)
    (h2 : dictGet m c = none ∨ dictGet m c = some c)
    (h3 : a = c ∨ dictGet m a ≠ some a) :
    SelfMapInv (addPair m a c) ∧
      dictGet (addPair m a c) c = some c ∧
      dictGet (addPair m a c) a = some c ∧
      (∀ k, k ≠ a → k ≠ c → dictGet (addPair m a c) k = dictGet m k) := by
  set m1 := dictSetdefault m c c with hm1
  have hm1c : dictGet m1 c = some c := by
    rw [hm1, dictGet_dictSetdefault_self]
    rcases h2 with h | h <;> rw [h] <;> rfl
  have hm1ne : ∀ k, k ≠ c → dictGet m1 k = dictGet m k := by
    intro k hk
    rw [hm1]
    exact dictGet_dictSetdefault_ne m c hk
  have hm1inv : SelfMapInv m1 := by
    intro p hp
    rcases mem_dictSetdefault hp with hpm | hpe
    · have hv := h1 p hpm
      by_cases hvc : p.2 = c
      · rw [hvc]; exact hm1c
      · rw [hm1ne p.2 hvc]; exact hv
    · rw [hpe]; exact hm1c
  have hselfa : dictGet (addPair m a c) a = some c := dictGet_dictSet_self m1 a c
  have hselfc : dictGet (addPair m a c) c = some c := by
    by_cases hca : c = a
    · show dictGet (dictSet m1 a c) c = some c
      rw [hca]
      exact dictGet_dictSet_self m1 a a
    · show dictGet (dictSet m1 a c) c = some c
      rw [dictGet_dictSet_ne m1 c hca]
      exact hm1c
  have hne : ∀ k, k ≠ a → k ≠ c → dictGet (addPair m a c) k = dictGet m k := by
    intro k hka hkc
    show dictGet (dictSet m1 a c) k = dictGet m k
    rw [dictGet_dictSet_ne m1 c hka]
    exact hm1ne k hkc
  refine ⟨?_, hselfc, hselfa, hne⟩
  intro p hp
  rcases mem_dictSet hp with hpe | ⟨hpm, hpne⟩
  · rw [hpe]; exact hselfc
  · have hv := hm1inv p hpm
    by_cases hvc : p.2 = c
    · rw [hvc]; exact hselfc
    · by_cases hva : p.2 = a
      · exfalso
        have hva' : dictGet m1 a = some a := by rw [← hva]; exact hv
        rcases h3 with h | h
        · exact hvc (hva.trans h)
        · have : a ≠ c := fun hac => hvc (hva.trans hac)
          rw [hm1ne a this] at hva'
          exact h hva'
      · rw [hne p.2 hva hvc, ← hm1ne p.2 hvc]
        exact hv

/-- `add_alias` preserves the invariant when the alias does not collide
with an existing self-mapped key (other than its own canonical) and the
canonical is not an existing alias of a different field. -/
theorem selfMapInv_add_alias {m : List (String × String)} {c a : String}
    (h1 : SelfMapInv m)
    (h2 : dictGet m c = none ∨ dictGet m c = some c)
    (h3 : a = c ∨ dictGet m a ≠ some a) :
    SelfMapInv (add_alias m c a) := by
  unfold add_alias
  split
  · exact h1
  · exact (addPair_facts h1 h2 h3).1

/-- `bulk_add_aliases` with an `alias -> canonical` payload preserves the
invariant when each alias does not collide with an existing or in-payload
canonical of a different field. -/
theorem selfMapInv_bulk_alias_to_canonical (P : List (String × String)) :
    ∀ m, SelfMapInv m →
    (∀ p ∈ P, p.2.isEmpty = false →
      (p.1 = p.2 ∨ dictGet m p.1 ≠ some p.1) ∧
      (dictGet m p.2 = none ∨ dictGet m p.2 = some p.2)) →
    (∀ p ∈ P, ∀ q ∈ P, p.2.isEmpty = false → q.2.isEmpty = false →
      (q.2 = p.1 → q.2 = p.2) ∧ (q.1 = p.2 → q.1 = q.2)) →
    SelfMapInv (bulk_add_aliases_alias_to_canonical m P) := by
  induction P with
  | nil => exact fun m h1 _ _ => h1
  | cons p P ih =>
    intro m h1 h2 h3
    show SelfMapInv (List.foldl _
      (if p.2.isEmpty then m else dictSet (dictSetdefault m p.2 p.2) p.1 p.2) P)
    by_cases hskip : p.2.isEmpty
    · rw [if_pos hskip]
      exact ih m h1 (fun q hq => h2 q (List.mem_cons_of_mem _ hq))
        (fun q hq r hr => h3 q (List.mem_cons_of_mem _ hq) r (List.mem_cons_of_mem _ hr))
    · rw [if_neg hskip]
      have hpc : p.2.isEmpty = false := by simpa using hskip
      have hp2 := h2 p (List.mem_cons_self _ _) hpc
      obtain ⟨f1, f2, f3, f4⟩ := addPair_facts h1 hp2.2 hp2.1
      have hmem : ∀ q ∈ P, q ∈ p :: P := fun q hq => List.mem_cons_of_mem _ hq
      refine ih (addPair m p.1 p.2) f1 ?_ ?_
      · intro q hq hqc
        have horig := h2 q (hmem q hq) hqc
        have hcross := h3 p (List.mem_cons_self _ _) q (hmem q hq) hpc hqc
        constructor
        · by_cases hq1 : q.1 = q.2
          · exact Or.inl hq1
          · refine Or.inr ?_
            intro heq
            by_cases hq1a : q.1 = p.1
            · rw [hq1a, f3] at heq
              have hpp : p.2 = p.1 := by simpa using heq
              exact hq1 (hcross.2 (hq1a.trans hpp.symm))
            · by_cases hq1c : q.1 = p.2
              · exact hq1 (hcross.2 hq1c)
              · rw [f4 q.1 hq1a hq1c] at heq
                rcases horig.1 with h | h
                · exact hq1 h
                · exact h heq
        · by_cases hq2c : q.2 = p.2
          · rw [hq2c]
            exact Or.inr f2
          · by_cases hq2a : q.2 = p.1
            · exact absurd (hcross.1 hq2a) hq2c
            · rw [f4 q.2 hq2a hq2c]
              exact horig.2
      · intro q hq r hr
        exact h3 q (hmem q hq) r (hmem r hr)

/-- Single alias insertion when the canonical already self-maps. -/
theorem selfMap_insert_alias_direct {m : List (String × String)} {c a : String}
    (h1 : SelfMapInv m) (hc : dictGet m c = some c)
    (h3 : a = c ∨ dictGet m a ≠ some a) :
    SelfMapInv (dictSet m a c) ∧ dictGet (dictSet m a c) c = some c ∧
      dictGet (dictSet m a c) a = some c ∧
      (∀ k, k ≠ a → dictGet (dictSet m a c) k = dictGet m k) := by
  have hselfa : dictGet (dictSet m a c) a = some c := dictGet_dictSet_self m a c
  have hne : ∀ k, k ≠ a → dictGet (dictSet m a c) k = dictGet m k :=
    fun k hk => dictGet_dictSet_ne m c hk
  have hselfc : dictGet (dictSet m a c) c = some c := by
    by_cases hca : c = a
    · rw [hca] at hc ⊢
      exact dictGet_dictSet_self m a a
    · rw [hne c hca]
      exact hc
  refine ⟨?_, hselfc, hselfa, hne⟩
  intro p hp
  rcases mem_dictSet hp with hpe | ⟨hpm, hpne⟩
  · rw [hpe]; exact hselfc
  · have hv := h1 p hpm
    by_cases hvc : p.2 = c
    · rw [hvc]; exact hselfc
    · by_cases hva : p.2 = a
      · exfalso
        rcases h3 with h | h
        · exact hvc (hva.trans h)
        · exact h (by rw [← hva]; exact hv)
      · rw [hne p.2 hva]
        exact hv

/-- The alias fold inside one `canonical -> [aliases]` bulk entry. -/
theorem selfMap_fold_alias_inserts {c : String} (as : List String) :
    ∀ m, SelfMapInv m → dictGet m c = some c →
    (∀ a ∈ as, a.isEmpty = false → (a = c ∨ dictGet m a ≠ some a)) →
    SelfMapInv (as.foldl (fun m a => if a.isEmpty then m else dictSet m a c) m) ∧
      dictGet (as.foldl (fun m a => if a.isEmpty then m else dictSet m a c) m) c
        = some c ∧
      (∀ k, k ≠ c → (∀ a ∈ as, a.isEmpty = false → k ≠ a) →
        dictGet (as.foldl (fun m a => if a.isEmpty then m else dictSet m a c) m) k
          = dictGet m k) ∧
      (∀ a ∈ as, a.isEmpty = false →
        dictGet (as.foldl (fun m a => if a.isEmpty then m else dictSet m a c) m) a
          = some c) := by
  induction as with
  | nil => exact fun m h1 h2 _ => ⟨h1, h2, fun _ _ _ => rfl, by simp⟩
  | cons a as ih =>
    intro m h1 h2 h3
    simp only [List.foldl_cons]
    by_cases hskip : a.isEmpty
    · rw [if_pos hskip]
      obtain ⟨r1, r2, r3, r4⟩ := ih m h1 h2
        (fun x hx hxe => h3 x (List.mem_cons_of_mem _ hx) hxe)
      refine ⟨r1, r2, ?_, ?_⟩
      · intro k hk hkas
        exact r3 k hk (fun x hx hxe => hkas x (List.mem_cons_of_mem _ hx) hxe)
      · intro x hx hxe
        rcases List.mem_cons.mp hx with hxa | hxm
        · rw [hxa] at hxe
          rw [hxe] at hskip
          simp at hskip
        · exact r4 x hxm hxe
    · rw [if_neg hskip]
      have hae : a.isEmpty = false := by simpa using hskip
      obtain ⟨f1, f2, f3, f4⟩ :=
        selfMap_insert_alias_direct h1 h2 (h3 a (List.mem_cons_self _ _) hae)
      have halias : ∀ x ∈ as, x.isEmpty = false →
          (x = c ∨ dictGet (dictSet m a c) x ≠ some x) := by
        intro x hx hxe
        by_cases hxc : x = c
        · exact Or.inl hxc
        · refine Or.inr ?_
          by_cases hxa : x = a
          · have hq : dictGet (dictSet m a c) x = dictGet (dictSet m a c) a := by
              rw [hxa]
            rw [hq, f3]
            intro hcx
            exact hxc ((by simpa using hcx : c = x)).symm
          · rw [f4 x hxa]
            rcases h3 x (List.mem_cons_of_mem _ hx) hxe with h | h
            · exact absurd h hxc
            · exact h
      obtain ⟨r1, r2, r3, r4⟩ := ih (dictSet m a c) f1 f2 halias
      refine ⟨r1, r2, ?_, ?_⟩
      · intro k hk hkas
        rw [r3 k hk (fun x hx hxe => hkas x (List.mem_cons_of_mem _ hx) hxe),
          f4 k (hkas a (List.mem_cons_self _ _) hae)]
      · intro x hx hxe
        rcases List.mem_cons.mp hx with hxa | hxm
        · subst hxa
          by_cases hxc : x = c
          · have hxeq : dictGet (List.foldl
                (fun m a => if a.isEmpty = true then m else dictSet m a c)
                (dictSet m x c) as) x = dictGet (List.foldl
                (fun m a => if a.isEmpty = true then m else dictSet m a c)
                (dictSet m x c) as) c := by rw [hxc]
            rw [hxeq]
            exact r2
          · by_cases hxin : ∀ y ∈ as, y.isEmpty = false → x ≠ y
            · rw [r3 x hxc hxin]
              exact f3
            · push_neg at hxin
              obtain ⟨y, hy, hye, hxy⟩ := hxin
              have hxeq : dictGet (List.foldl
                  (fun m a => if a.isEmpty = true then m else dictSet m a c)
                  (dictSet m x c) as) x = dictGet (List.foldl
                  (fun m a => if a.isEmpty = true then m else dictSet m a c)
                  (dictSet m x c) as) y := by rw [hxy]
              rw [hxeq]
              exact r4 y hy hye
        · exact r4 x hxm hxe

/-- `bulk_add_aliases` with a `canonical -> [aliases]` payload preserves the
invariant under the same non-collision conditions. -/
theorem selfMapInv_bulk_canonical_to_aliases (P : List (String × List String)) :
    ∀ m, SelfMapInv m →
    (∀ p ∈ P, (dictGet m p.1 = none ∨ dictGet m p.1 = some p.1) ∧
      (∀ a ∈ p.2, a.isEmpty = false → (a = p.1 ∨ dictGet m a ≠ some a))) →
    (∀ p ∈ P, ∀ q ∈ P, ∀ a ∈ p.2, a.isEmpty = false → a = q.1 → q.1 = p.1) →
    SelfMapInv (bulk_add_aliases_canonical_to_aliases m P) := by
  induction P with
  | nil => exact fun m h1 _ _ => h1
  | cons p P ih =>
    intro m h1 h2 h3
    have hp := h2 p (List.mem_cons_self _ _)
    have hmem : ∀ q ∈ P, q ∈ p :: P := fun q hq => List.mem_cons_of_mem _ hq
    set m0 := dictSetdefault m p.1 p.1 with hm0
    have hm0c : dictGet m0 p.1 = some p.1 := by
      rw [hm0, dictGet_dictSetdefault_self]
      rcases hp.1 with h | h <;> rw [h] <;> rfl
    have hm0ne : ∀ k, k ≠ p.1 → dictGet m0 k = dictGet m k := by
      intro k hk
      rw [hm0]
      exact dictGet_dictSetdefault_ne m p.1 hk
    have hm0inv : SelfMapInv m0 := by
      intro q hq
      rcases mem_dictSetdefault hq with hqm | hqe
      · have hv := h1 q hqm
        by_cases hvc : q.2 = p.1
        · rw [hvc]; exact hm0c
        · rw [hm0ne q.2 hvc]; exact hv
      · rw [hqe]; exact hm0c
    have hm0alias : ∀ a ∈ p.2, a.isEmpty = false →
        (a = p.1 ∨ dictGet m0 a ≠ some a) := by
      intro a ha hae
      rcases hp.2 a ha hae with h | h
      · exact Or.inl h
      · by_cases hap : a = p.1
        · exact Or.inl hap
        · refine Or.inr ?_
          rw [hm0ne a hap]
          exact h
    obtain ⟨f1, f2, f3, f4⟩ := selfMap_fold_alias_inserts p.2 m0 hm0inv hm0c hm0alias
    show SelfMapInv (List.foldl _
      (p.2.foldl (fun m a => if a.isEmpty then m else dictSet m a p.1) m0) P)
    refine ih _ f1 ?_ ?_
    · intro q hq
      have horig := h2 q (hmem q hq)
      constructor
      · by_cases hq1 : q.1 = p.1
        · rw [hq1]
          exact Or.inr f2
        · by_cases hqin : ∀ a ∈ p.2, a.isEmpty = false → q.1 ≠ a
          · rw [f3 q.1 hq1 hqin, hm0ne q.1 hq1]
            exact horig.1
          · push_neg at hqin
            obtain ⟨a, ha, hae, hqa⟩ := hqin
            have := h3 p (List.mem_cons_self _ _) q (hmem q hq) a ha hae hqa.symm
            exact absurd this hq1
      · intro a ha hae
        by_cases hap : a = p.1
        · have := h3 q (hmem q hq) p (List.mem_cons_self _ _) a ha hae hap
          exact Or.inl (hap.trans this)
        · by_cases hain : ∀ x ∈ p.2, x.isEmpty = false → a ≠ x
          · rcases horig.2 a ha hae with h | h
            · exact Or.inl h
            · rw [f3 a hap hain, hm0ne a hap]
              exact Or.inr h
          · push_neg at hain
            obtain ⟨x, hx, hxe, hax⟩ := hain
            refine Or.inr ?_
            have hq2 : dictGet (p.2.foldl
                (fun m a => if a.isEmpty = true then m else dictSet m a p.1) m0) a
                = dictGet (p.2.foldl
                (fun m a => if a.isEmpty = true then m else dictSet m a p.1) m0) x := by
              rw [hax]
            rw [hq2, f4 x hx hxe]
            intro hcx
            exact hap ((by simpa using hcx : p.1 = a)).symm
    · intro q hq r hr
      exact h3 q (hmem q hq) r (hmem r hr)

/-! ### SAIBA sync client (saiba_sync_service.py)

The HTTP layer is external: a POST outcome is a `SaibaResponse` carrying
the status code and the JSON fields the service reads
(`data.get("status")`, `data.get("result")`, `data.get("error")`,
`data.get("validations")`, `data.get("message")`).  Token acquisition is a
state machine over the cached token; the fresh tokens returned by the
`GetToken` endpoint are parameters. -/

structure SaibaResponse where
  statusCode : Nat
  jsonStatus : Option String
  jsonResult : Option String
  jsonError : Option String
  jsonValidations : Option String
  jsonMessage : Option String
  deriving DecidableEq, Repr

/-- Case-insensitive literal match of `pat` at the head of `l`; returns the
rest of `l` on success. -/
def matchCI : List Char → List Char → Option (List Char)
  | [], l => some l
  | _ :: _, [] => none
  | p :: ps, c :: cs => if p.toLower = c.toLower then matchCI ps cs else none

/-- Try the pattern `Control No\s*:\s*(\d+)` at the current position,
returning the captured digit run. -/
def ctrlMatchAt (l : List Char) : Option (List Char) :=
  match matchCI ("control no".toList) l with
  | none => none
  | some rest =>
    match rest.dropWhile isPyWs with
    | ':' :: r2 =>
      let ds := (r2.dropWhile isPyWs).takeWhile isAsciiDigit
      if ds.isEmpty then none else some ds
    | _ => none

/-- Leftmost-match scan of `re.search`. -/
def ctrlScan : List Char → Option (List Char)
  | [] => none
  | c :: cs =>
    match ctrlMatchAt (c :: cs) with
    | some ds => some ds
    | none => ctrlScan cs

/-- `SaibaSyncService._parse_control_number` (lines 336-342):
`re.search(r'Control No\s*:\s*(\d+)', result_text, re.IGNORECASE)`,
`None` for falsy input or no match. -/
def parse_control_number (s : String) : Option String :=
  if s.isEmpty then none
  else (ctrlScan s.toList).map String.mk

example : parse_control_number "Successfully Saved with Control No : 398254"
    = some "398254" := by decide
example : parse_control_number "Saved OK" = none := by decide
example : parse_control_number "" = none := by decide

/-- The sync bookkeeping fields of a Motor/Health policy record. -/
structure PolicyRec where
  saiba_sync_status : Option String
  saiba_sync_datetime : Option Nat
  saiba_sync_error : Option String
  saiba_control_number : Option String
  saiba_sync_response : Option String
  deriving DecidableEq, Repr

/-- `SaibaSyncService._update_sync_status` (lines 372-400): always writes
status and datetime; writes the error field unconditionally (clearing it
when no error); writes the control number only when truthy; writes the
request/response blob only when one was supplied. -/
def update_sync_status (rec : PolicyRec) (tNow : Nat) (status : String)
    (error : Option String) (controlNumber : Option String)
    (blob : Option String) : PolicyRec :=
  { saiba_sync_status := some status,
    saiba_sync_datetime := some tNow,
    saiba_sync_error :=
      match error with
      | some e => if e.isEmpty then none else some e
      | none => none,
    saiba_control_number :=
      match controlNumber with
      | some cn => if cn.isEmpty then rec.saiba_control_number else some cn
      | none => rec.saiba_control_number,
    saiba_sync_response :=
      match blob with
      | some b => some b
      | none => rec.saiba_sync_response }

structure SyncOutcome where
  success : Bool
  control_number : Option String
  message : Option String
  error : Option String
  deriving DecidableEq, Repr

/-- Python `a or b or c or default` over optional strings (first truthy). -/
def firstTruthy : List (Option String) → String → String
  | [], dflt => dflt
  | some s :: rest, dflt => if s.isEmpty then firstTruthy rest dflt else s
  | none :: rest, dflt => firstTruthy rest dflt

/-- `SaibaSyncService._handle_api_response` (lines 344-370). -/
def handle_api_response (resp : SaibaResponse) (rec : PolicyRec) (tNow : Nat)
    (blob : Option String) : SyncOutcome × PolicyRec :=
  if resp.statusCode == 200 && resp.jsonStatus == some "Success" then
    let controlNo := parse_control_number ((resp.jsonResult).getD "")
    (⟨true, controlNo, resp.jsonResult, none⟩,
      update_sync_status rec tNow "Synced" none controlNo blob)
  else
    let errorMsg := firstTruthy
      [resp.jsonError, resp.jsonValidations, resp.jsonMessage]
      ("HTTP " ++ toString resp.statusCode)
    (⟨false, none, none, some errorMsg⟩,
      update_sync_status rec tNow "Failed" (some errorMsg) none blob)

/-- Cached-token state (`saiba_token` plus the outcome of the expiry check
`_is_token_valid`, abstracted as a flag). -/
structure TokenState where
  token : Option String
  tokenValid : Bool
  deriving DecidableEq, Repr

def is_token_valid (st : TokenState) : Bool :=
  st.token.isSome && st.tokenValid

/-- `SaibaSyncService._get_auth_token` (lines 122-127): reuse a valid
cached token, else refresh (the fresh token the endpoint returns is a
parameter). -/
def get_auth_token (st : TokenState) (fresh : String) : String × TokenState :=
  if is_token_valid st then (st.token.getD "", st)
  else (fresh, { token := some fresh, tokenValid := true })

structure ApiRequestTrace where
  response : SaibaResponse
  finalState : TokenState
  postCount : Nat
  tokenCleared : Bool
  refreshCount : Nat
  deriving DecidableEq, Repr

/-- `SaibaSyncService._make_api_request` (lines 287-334): acquire a token,
POST once; on 401/403 clear the cached token, re-authenticate once, and
POST exactly once more, returning the second response.  `post1`/`post2`
are the outcomes of the successive POSTs and `fresh1`/`fresh2` the tokens
the `GetToken` endpoint would return. -/
def make_api_request (st : TokenState) (fresh1 fresh2 : String)
    (post1 post2 : SaibaResponse) : ApiRequestTrace :=
  let acq := get_auth_token st fresh1
  let startRefreshes := if is_token_valid st then 0 else 1
  if post1.statusCode == 401 || post1.statusCode == 403 then
    { response := post2,
      finalState := { token := some fresh2, tokenValid := true },
      postCount := 2,
      tokenCleared := true,
      refreshCount := startRefreshes + 1 }
  else
    { response := post1,
      finalState := acq.2,
      postCount := 1,
      tokenCleared := false,
      refreshCount := startRefreshes }

/-- The sync flow of `sync_motor_policy`/`sync_health_policy` after the
payload is built (lines 402-478): mark `Pending`, POST with retry, then
classify the response. -/
def sync_policy (st : TokenState) (fresh1 fresh2 : String)
    (post1 post2 : SaibaResponse) (rec : PolicyRec) (t1 t2 : Nat)
    (blob : Option String) : SyncOutcome × PolicyRec × ApiRequestTrace :=
  let recPending := update_sync_status rec t1 "Pending" none none none
  let trace := make_api_request st fresh1 fresh2 post1 post2
  let hr := handle_api_response trace.response recPending t2 blob
  (hr.1, hr.2, trace)

/-! ## Claim theorems -/

/-- C9: Key normalization is idempotent: for every string s,
normalize(normalize(s)) equals normalize(s), where normalize lowercases,
collapses every run of non-alphanumeric characters to a single space,
trims surrounding whitespace, and maps empty input to the empty string. -/
theorem C9_normalize_key_idempotent (s : String) :
    normalize_key (normalize_key s) = normalize_key s :=
  congrArg String.mk (normalizeKeyL_idem s.toList)

/-- C2 counterexample: the claimed MM/DD fallback does not exist.
Converting "03/15/2024" for a Date field yields null, not 2024-03-15: the
code rebuilds it as "2024-15-03", dateutil pins the 4-digit year, reads
month 15, the parse raises, and the converter degrades to None. -/
theorem C2_date_fallback_counterexample :
    convert_field_value [⟨"policy_start_date", "Date", none, none⟩]
        "policy_start_date" (.vstr "03/15/2024") = none ∧
    (none : Option PyVal) ≠ some (.vdate 2024 3 15) := by
  constructor <;> decide

/-- C2 amended: date conversion parses slash-separated dates day-first:
"15/03/2024" for a Date field yields 2024-03-15; an input impossible as
DD/MM such as "03/15/2024" is not re-read as MM/DD — the rebuilt
"2024-15-03" fails to parse and the conversion degrades to null. -/
theorem C2_date_conversion_day_first :
    convert_field_value [⟨"policy_start_date", "Date", none, none⟩]
        "policy_start_date" (.vstr "15/03/2024") = some (.vdate 2024 3 15) ∧
    convert_field_value [⟨"policy_start_date", "Date", none, none⟩]
        "policy_start_date" (.vstr "03/15/2024") = none := by
  constructor <;> decide

/-- C6 counterexample: the converter does not strip currency decoration or
descriptive text: "₹4,156,250.00" on a Float field converts to 0 (not
4156250.00) because only commas are stripped and `float` then fails, and
"5 seater capacity" on an Int field converts to 0 (not 5). -/
theorem C6_currency_stripping_counterexample :
    convert_field_value [⟨"sum_insured", "Float", none, none⟩] "sum_insured"
        (.vstr "₹4,156,250.00") = some (.vfloat 0) ∧ (0 : ℚ) ≠ 4156250 ∧
    convert_field_value [⟨"seats", "Int", none, none⟩] "seats"
        (.vstr "5 seater capacity") = some (.vint 0) ∧ (0 : ℤ) ≠ 5 := by
  refine ⟨by decide, by decide, by decide, by decide⟩

/-- C6 amended: numeric conversion strips only comma thousands separators
(via frappe flt) in the Float path and nothing in the Int path; a value
with a currency symbol or descriptive text fails to parse and degrades to
0: "₹4,156,250.00" yields 0.0 while the symbol-free "4,156,250.00" yields
4156250.0, and "5 seater capacity" yields 0 while "5" yields 5. -/
theorem C6_numeric_conversion_comma_stripping_only :
    convert_field_value [⟨"sum_insured", "Float", none, none⟩] "sum_insured"
        (.vstr "₹4,156,250.00") = some (.vfloat 0) ∧
    convert_field_value [⟨"sum_insured", "Float", none, none⟩] "sum_insured"
        (.vstr "4,156,250.00") = some (.vfloat 4156250) ∧
    convert_field_value [⟨"seats", "Int", none, none⟩] "seats"
        (.vstr "5 seater capacity") = some (.vint 0) ∧
    convert_field_value [⟨"seats", "Int", none, none⟩] "seats"
        (.vstr "5") = some (.vint 5) := by
  refine ⟨by decide, by decide, by decide, by decide⟩

/-- C5 counterexample: Check conversion is `bool(value)`, not membership in
a yes/true/1/y list: the value "no" converts to true although "no" is not
in that list (the claim requires false). -/
theorem C5_check_conversion_counterexample :
    convert_field_value [⟨"pos_policy", "Check", none, none⟩] "pos_policy"
        (.vstr "no") = some (.vbool true) ∧
    ¬ (pyLower "no" = "yes" ∨ pyLower "no" = "true" ∨ pyLower "no" = "1"
        ∨ pyLower "no" = "y") := by
  refine ⟨by decide, by decide⟩

/-- C5 amended: for a Check destination field, conversion returns null
exactly when the null/blank/NA guard rejects the value, and returns true
(Python `bool` of an already-truthy value) for every value the guard lets
through; false is never returned. -/
theorem C5_check_conversion_always_true (meta : List DocField) (fname : String)
    (v : PyVal) (fd : DocField) (hf : getField meta fname = some fd)
    (ht : fd.fieldtype = "Check") :
    (naGuard v = true → convert_field_value meta fname v = none) ∧
    (naGuard v = false → convert_field_value meta fname v = some (.vbool true)) := by
  constructor
  · intro hg
    unfold convert_field_value
    rw [hg]
    rfl
  · intro hg
    unfold convert_field_value
    rw [hg]
    have ht2 : pyTruthy v = true := by
      by_contra hpt
      rw [Bool.not_eq_true] at hpt
      unfold naGuard at hg
      rw [hpt] at hg
      simp at hg
    rw [hf]
    simp [ht, ht2]

/-- Witness for the C5 amended theorem: the guard-rejected value "NA"
converts to null, the guard-passing value "no" converts to true. -/
theorem C5_check_conversion_always_true_witness :
    convert_field_value [⟨"pos_policy", "Check", none, none⟩] "pos_policy"
        (.vstr "NA") = none ∧
    convert_field_value [⟨"pos_policy", "Check", none, none⟩] "pos_policy"
        (.vstr "no") = some (.vbool true) :=
  ⟨(C5_check_conversion_always_true _ _ (.vstr "NA")
      ⟨"pos_policy", "Check", none, none⟩ (by decide) (by decide)).1 (by decide),
   (C5_check_conversion_always_true _ _ (.vstr "no")
      ⟨"pos_policy", "Check", none, none⟩ (by decide) (by decide)).2 (by decide)⟩

/-- C4: value conversion is total (the embedding returns, never raises:
every Python exception path is an explicit `none`), and for every raw
value and every declared destination field the result is null or a value
of the field's declared type. -/
theorem C4_conversion_totality (meta : List DocField) (fname : String)
    (v : PyVal) (fd : DocField) (_hraw : v.isRaw = true)
    (hf : getField meta fname = some fd) :
    convert_field_value meta fname v = none ∨
      ∃ u, convert_field_value meta fname v = some u ∧
        matchesFieldType fd.fieldtype u = true := by
  unfold convert_field_value
  by_cases hg : naGuard v
  · rw [if_pos hg]
    exact Or.inl rfl
  · rw [if_neg hg, hf]
    unfold matchesFieldType
    by_cases hD : fd.fieldtype = "Date"
    · simp only [hD]
      cases convert_date_value v with
      | none => exact Or.inl rfl
      | some t => exact Or.inr ⟨.vdate t.1 t.2.1 t.2.2, rfl, by rfl⟩
    · have hD' : (fd.fieldtype == "Date") = false := by simpa using hD
      simp only [hD', Bool.false_eq_true, if_false]
      by_cases hDt : fd.fieldtype = "Datetime"
      · simp only [hDt]
        cases convert_datetime_value v with
        | none => exact Or.inl rfl
        | some t => exact Or.inr ⟨.vdatetime t.1 t.2.1 t.2.2, rfl, by rfl⟩
      · have hDt' : (fd.fieldtype == "Datetime") = false := by simpa using hDt
        simp only [hDt', Bool.false_eq_true, if_false]
        by_cases hF : fd.fieldtype = "Float"
        · simp only [hF]
          exact Or.inr ⟨.vfloat (flt v), rfl, by rfl⟩
        · have hF' : (fd.fieldtype == "Float") = false := by simpa using hF
          simp only [hF', Bool.false_eq_true, if_false]
          by_cases hI : fd.fieldtype = "Int"
          · simp only [hI]
            exact Or.inr ⟨.vint (cint v), rfl, by rfl⟩
          · have hI' : (fd.fieldtype == "Int") = false := by simpa using hI
            simp only [hI', Bool.false_eq_true, if_false]
            by_cases hC : fd.fieldtype = "Check"
            · simp only [hC]
              exact Or.inr ⟨.vbool (pyTruthy v), rfl, by rfl⟩
            · have hC' : (fd.fieldtype == "Check") = false := by simpa using hC
              simp only [hC', Bool.false_eq_true, if_false]
              by_cases hS : fd.fieldtype = "Select"
              · simp only [hS]
                cases normalize_select_value v fd.options (some fname) fd.label with
                | error e => exact Or.inl rfl
                | ok r =>
                  cases r with
                  | none => exact Or.inl rfl
                  | some s => exact Or.inr ⟨.vstr s, rfl, by rfl⟩
              · have hS' : (fd.fieldtype == "Select") = false := by simpa using hS
                simp only [hS', Bool.false_eq_true, if_false]
                exact Or.inr ⟨.vstr (cstr v), rfl, by rfl⟩

/-- Witness for C4 at a concrete input. -/
theorem C4_conversion_totality_witness :
    convert_field_value [⟨"gst", "Float", none, none⟩] "gst" (.vstr "18") = none ∨
      ∃ u, convert_field_value [⟨"gst", "Float", none, none⟩] "gst" (.vstr "18")
        = some u ∧ matchesFieldType "Float" u = true :=
  C4_conversion_totality _ _ _ ⟨"gst", "Float", none, none⟩ (by decide) (by decide)

/-- Every bag entry changes `mapped_count + |unmapped_fields|` by exactly
one when processed and zero when skipped. -/
theorem mfdStep_count (closeMatches : String → List String → List String)
    (meta : List DocField) (nm : List (String × String))
    (st : MappingResult) (kv : String × PyVal) :
    (mfdStep closeMatches meta nm st kv).mapped_count
      + (mfdStep closeMatches meta nm st kv).unmapped_fields.length
    = st.mapped_count + st.unmapped_fields.length
      + (if processedEntry kv then 1 else 0) := by
  unfold mfdStep processedEntry
  by_cases hs : skippedValue kv.2
  · simp [hs]
  · simp only [hs, Bool.not_false, if_true, Bool.false_eq_true, if_false]
    by_cases hr : optStrTruthy (resolveField nm kv.1)
    · simp only [hr, if_true]
      cases convert_field_value meta ((resolveField nm kv.1).getD "") kv.2 with
      | none => simp [List.length_append]; omega
      | some u => simp [List.length_append]; omega
    · simp only [hr, Bool.false_eq_true, if_false]
      simp [List.length_append]
      omega

theorem mfd_foldl_count (closeMatches : String → List String → List String)
    (meta : List DocField) (nm : List (String × String))
    (bag : List (String × PyVal)) :
    ∀ st : MappingResult,
    (bag.foldl (mfdStep closeMatches meta nm) st).mapped_count
      + (bag.foldl (mfdStep closeMatches meta nm) st).unmapped_fields.length
    = st.mapped_count + st.unmapped_fields.length
      + (bag.filter processedEntry).length := by
  induction bag with
  | nil => intro st; simp
  | cons kv bag ih =>
    intro st
    rw [List.foldl_cons, ih (mfdStep closeMatches meta nm st kv),
      mfdStep_count closeMatches meta nm st kv]
    by_cases hp : processedEntry kv
    · simp [List.filter_cons, hp]
      omega
    · simp only [List.filter_cons, hp, Bool.false_eq_true, if_false, if_pos]
      simp [hp]

/-- Non-null bag entries (the quantity named by the original claim). -/
def nonNullEntry (kv : String × PyVal) : Bool :=
  match kv.2 with
  | .vnone => false
  | _ => true

/-- C7 counterexample: a non-null but blank value (here a single space) is
skipped by the mapping loop and lands in neither `mapped_count` nor
`unmapped_fields`, so the books do not balance against the count of
non-null entries. -/
theorem C7_mapping_coverage_counterexample :
    ¬ ((map_fields_dynamically (fun _ _ => []) [] [("k", .vstr " ")] []
          []).mapped_count
      + (map_fields_dynamically (fun _ _ => []) [] [("k", .vstr " ")] []
          []).unmapped_fields.length
      = ([("k", PyVal.vstr " ")].filter nonNullEntry).length) := by decide

/-- C7 amended: `mapped_count + |unmapped_fields|` equals the number of
bag entries that are neither null nor blank (entries whose stringified
value strips to empty are skipped along with nulls); every processed key
is accounted for exactly once. -/
theorem C7_mapping_coverage
    (closeMatches : String → List String → List String) (meta : List DocField)
    (bag : List (String × PyVal)) (fieldMapping : List (String × String))
    (record : List (String × PyVal)) :
    (map_fields_dynamically closeMatches meta bag fieldMapping record).mapped_count
      + (map_fields_dynamically closeMatches meta bag fieldMapping
          record).unmapped_fields.length
    = (bag.filter processedEntry).length := by
  unfold map_fields_dynamically
  rw [mfd_foldl_count]
  simp

/-- The protected-field frame property, proved over the fold. -/
theorem mfdp_foldl_frame (meta : List DocField)
    (nm : List (String × String)) (prot : List String) (f : String)
    (hf : f ∈ prot) (bag : List (String × PyVal)) :
    ∀ st : MappingResultP, isSetField st.record f = true →
    dictGet ((bag.foldl (fun st kv =>
      if skippedValue kv.2 then st
      else
        let resolved := resolveField nm kv.1
        if optStrTruthy resolved then
          let fieldName := resolved.getD ""
          if prot.contains fieldName && isSetField st.record fieldName then
            { st with protected_count := st.protected_count + 1 }
          else
            match convert_field_value meta fieldName kv.2 with
            | some u =>
              { st with record := dictSet st.record fieldName u,
                        mapped_count := st.mapped_count + 1 }
            | none => { st with unmapped_fields := st.unmapped_fields ++ [kv.1] }
        else { st with unmapped_fields := st.unmapped_fields ++ [kv.1] }) st).record) f
      = dictGet st.record f := by
  induction bag with
  | nil => intro st _; rfl
  | cons kv bag ih =>
    intro st hset
    rw [List.foldl_cons]
    by_cases hs : skippedValue kv.2
    · rw [if_pos hs]
      exact ih st hset
    · rw [if_neg hs]
      by_cases hr : optStrTruthy (resolveField nm kv.1)
      · simp only [hr, if_true]
        set g := (resolveField nm kv.1).getD "" with hg
        by_cases hpf : prot.contains g && isSetField st.record g
        · rw [if_pos hpf]
          exact ih _ hset
        · rw [if_neg hpf]
          have hgf : g ≠ f := by
            intro hgf
            apply hpf
            rw [hgf]
            rw [Bool.and_eq_true]
            exact ⟨List.elem_iff.mpr hf, hset⟩
          cases hc : convert_field_value meta g kv.2 with
          | none => exact ih _ hset
          | some u =>
            have hrec : dictGet (dictSet st.record g u) f = dictGet st.record f :=
              dictGet_dictSet_ne st.record u (fun hh => hgf hh.symm)
            have hset2 : isSetField (dictSet st.record g u) f = true := by
              unfold isSetField
              rw [hrec]
              exact hset
            rw [ih _ hset2]
            exact hrec
      · simp only [hr, Bool.false_eq_true, if_false]
        exact ih _ hset

/-- C1: on the protected-aware mapper (spec-modelled, see
`map_fields_dynamically_protected`), a protected field that is already set
on the destination record is left unchanged by the mapping run, even when
the bag holds a key resolving to that field with a different non-empty
value. -/
theorem C1_protected_field_non_override (meta : List DocField)
    (bag : List (String × PyVal)) (fieldMapping : List (String × String))
    (record : List (String × PyVal)) (prot : List String) (f : String)
    (hf : f ∈ prot) (hset : isSetField record f = true)
    (_hbag : ∃ kv ∈ bag, processedEntry kv = true ∧
      resolveField (build_normalized_mapping fieldMapping) kv.1 = some f ∧
      some kv.2 ≠ dictGet record f) :
    dictGet (map_fields_dynamically_protected meta bag fieldMapping record
      prot).record f = dictGet record f := by
  unfold map_fields_dynamically_protected
  exact mfdp_foldl_frame meta (build_normalized_mapping fieldMapping) prot f hf bag
    { mapped_count := 0, unmapped_fields := [], protected_count := 0,
      record := record } hset

/-- Witness for C1: a protected `policy_type` already set to Motor is not
overwritten by an extracted "Policy Type": "Health" entry. -/
theorem C1_protected_field_non_override_witness :
    dictGet (map_fields_dynamically_protected
      [⟨"policy_type", "Data", none, none⟩]
      [("Policy Type", .vstr "Health")]
      [("Policy Type", "policy_type")]
      [("policy_type", .vstr "Motor")]
      get_protected_fields).record "policy_type"
    = dictGet [("policy_type", PyVal.vstr "Motor")] "policy_type" :=
  C1_protected_field_non_override _ _ _ _ _ _
    (by decide) (by decide)
    ⟨("Policy Type", .vstr "Health"), by decide, by decide, by decide, by decide⟩

set_option maxRecDepth 10000 in
/-- C8 counterexample: preservation fails for arbitrary arguments: in the
default motor map the canonical field policy_no self-maps, but
add_alias(motor, policy_type, policy_no) re-points the key policy_no at
policy_type, so resolving the canonical field policy_no no longer yields
itself. -/
theorem C8_self_mapping_counterexample :
    dictGet (build_default_field_mapping "motor") "policy_no" = some "policy_no" ∧
    dictGet (add_alias (build_default_field_mapping "motor") "policy_type"
      "policy_no") "policy_no" = some "policy_type" ∧
    ("policy_no" : String) ≠ "policy_type" := by
  refine ⟨?_, ?_, by decide⟩
  · exact (selfMapInv_buildFromTable motor_tableCCF).2 _ (List.mem_cons_self _ _)
  · show dictGet (dictSet (dictSetdefault (build_default_field_mapping "motor")
      "policy_type" "policy_type") "policy_no" "policy_type") "policy_no"
      = some "policy_type"
    exact dictGet_dictSet_self _ "policy_no" "policy_type"

/-- C8 amended: the self-mapping invariant holds after rebuilding either
policy type from its default table, and is preserved by add_alias and by
bulk_add_aliases (either payload shape) provided no supplied alias
collides with a self-mapped canonical key of a different field (existing
or introduced by the same payload) and each supplied canonical is not
already registered as an alias of a different field; with colliding
arguments the alias assignment re-points the existing canonical key. -/
theorem C8_self_mapping_invariant :
    (SelfMapInv (build_default_field_mapping "motor") ∧
     SelfMapInv (build_default_field_mapping "health")) ∧
    (∀ m c a, SelfMapInv m →
      (dictGet m c = none ∨ dictGet m c = some c) →
      (a = c ∨ dictGet m a ≠ some a) →
      SelfMapInv (add_alias m c a)) ∧
    (∀ m P, SelfMapInv m →
      (∀ p ∈ P, p.2.isEmpty = false →
        (p.1 = p.2 ∨ dictGet m p.1 ≠ some p.1) ∧
        (dictGet m p.2 = none ∨ dictGet m p.2 = some p.2)) →
      (∀ p ∈ P, ∀ q ∈ P, p.2.isEmpty = false → q.2.isEmpty = false →
        (q.2 = p.1 → q.2 = p.2) ∧ (q.1 = p.2 → q.1 = q.2)) →
      SelfMapInv (bulk_add_aliases_alias_to_canonical m P)) ∧
    (∀ m P, SelfMapInv m →
      (∀ p ∈ P, (dictGet m p.1 = none ∨ dictGet m p.1 = some p.1) ∧
        (∀ a ∈ p.2, a.isEmpty = false → (a = p.1 ∨ dictGet m a ≠ some a))) →
      (∀ p ∈ P, ∀ q ∈ P, ∀ a ∈ p.2, a.isEmpty = false → a = q.1 → q.1 = p.1) →
      SelfMapInv (bulk_add_aliases_canonical_to_aliases m P)) := by
  refine ⟨⟨(selfMapInv_buildFromTable motor_tableCCF).1,
    (selfMapInv_buildFromTable health_tableCCF).1⟩,
    fun m c a h1 h2 h3 => selfMapInv_add_alias h1 h2 h3,
    fun m P h1 h2 h3 => selfMapInv_bulk_alias_to_canonical P m h1 h2 h3,
    fun m P h1 h2 h3 => selfMapInv_bulk_canonical_to_aliases P m h1 h2 h3⟩

/-- Witness for C8: the preservation clauses applied at concrete inputs. -/
theorem C8_self_mapping_invariant_witness :
    SelfMapInv (add_alias [("make", "make")] "fuel" "Fuel Type") ∧
    SelfMapInv (bulk_add_aliases_alias_to_canonical [("make", "make")]
      [("Vehicle Make", "make")]) ∧
    SelfMapInv (bulk_add_aliases_canonical_to_aliases [("make", "make")]
      [("fuel", ["Fuel", "Fuel Type"])]) :=
  ⟨C8_self_mapping_invariant.2.1 [("make", "make")] "fuel" "Fuel Type"
      (by decide) (by decide) (by decide),
   C8_self_mapping_invariant.2.2.1 [("make", "make")] [("Vehicle Make", "make")]
      (by decide) (by decide) (by decide),
   C8_self_mapping_invariant.2.2.2 [("make", "make")] [("fuel", ["Fuel", "Fuel Type"])]
      (by decide) (by decide) (by decide)⟩

/-- C10: a 200/"Success" response whose result text has no control-number
pattern still transitions the record to Synced, returns success with a
null control number, and leaves any previously stored control number
untouched. -/
theorem C10_success_without_control_number (resp : SaibaResponse)
    (rec : PolicyRec) (tNow : Nat) (blob : Option String)
    (hc : resp.statusCode = 200) (hs : resp.jsonStatus = some "Success")
    (hp : parse_control_number ((resp.jsonResult).getD "") = none) :
    (handle_api_response resp rec tNow blob).1.success = true ∧
    (handle_api_response resp rec tNow blob).1.control_number = none ∧
    (handle_api_response resp rec tNow blob).2.saiba_sync_status = some "Synced" ∧
    (handle_api_response resp rec tNow blob).2.saiba_control_number
      = rec.saiba_control_number := by
  unfold handle_api_response
  rw [hc, hs]
  simp only [beq_self_eq_true, Bool.and_self, if_true, hp]
  simp [update_sync_status]

/-- Witness for C10 at a concrete response and record. -/
theorem C10_success_without_control_number_witness :
    (handle_api_response ⟨200, some "Success", some "Saved OK", none, none, none⟩
      ⟨some "Failed", some 1, some "boom", some "111", none⟩ 2 none).1.success = true ∧
    (handle_api_response ⟨200, some "Success", some "Saved OK", none, none, none⟩
      ⟨some "Failed", some 1, some "boom", some "111", none⟩ 2
        none).1.control_number = none ∧
    (handle_api_response ⟨200, some "Success", some "Saved OK", none, none, none⟩
      ⟨some "Failed", some 1, some "boom", some "111", none⟩ 2
        none).2.saiba_sync_status = some "Synced" ∧
    (handle_api_response ⟨200, some "Success", some "Saved OK", none, none, none⟩
      ⟨some "Failed", some 1, some "boom", some "111", none⟩ 2
        none).2.saiba_control_number
      = (⟨some "Failed", some 1, some "boom", some "111", none⟩ :
          PolicyRec).saiba_control_number :=
  C10_success_without_control_number _ _ 2 none rfl rfl (by decide)

/-- C3: a sync whose first POST returns 401 clears the cached token,
re-authenticates, retries the POST exactly once (two POSTs in total), and
when the retry returns 200 with status "Success" and the result
"Successfully Saved with Control No : 398254", the record ends Synced
with control number "398254". -/
theorem C3_sync_retry_on_401 (st : TokenState) (fresh1 fresh2 : String)
    (post1 post2 : SaibaResponse) (rec : PolicyRec) (t1 t2 : Nat)
    (blob : Option String)
    (h1 : post1.statusCode = 401)
    (h2c : post2.statusCode = 200) (h2s : post2.jsonStatus = some "Success")
    (h2r : post2.jsonResult = some "Successfully Saved with Control No : 398254") :
    (sync_policy st fresh1 fresh2 post1 post2 rec t1 t2 blob).2.2.postCount = 2 ∧
    (sync_policy st fresh1 fresh2 post1 post2 rec t1 t2 blob).2.2.tokenCleared
      = true ∧
    (sync_policy st fresh1 fresh2 post1 post2 rec t1 t2
      blob).2.2.finalState.token = some fresh2 ∧
    (sync_policy st fresh1 fresh2 post1 post2 rec t1 t2 blob).1.success = true ∧
    (sync_policy st fresh1 fresh2 post1 post2 rec t1 t2 blob).1.control_number
      = some "398254" ∧
    (sync_policy st fresh1 fresh2 post1 post2 rec t1 t2
      blob).2.1.saiba_sync_status = some "Synced" ∧
    (sync_policy st fresh1 fresh2 post1 post2 rec t1 t2
      blob).2.1.saiba_control_number = some "398254" := by
  have hparse : parse_control_number
      "Successfully Saved with Control No : 398254" = some "398254" := by decide
  unfold sync_policy make_api_request handle_api_response
  simp only [h1, h2c, h2s, h2r, beq_self_eq_true, Bool.true_or, Bool.and_self,
    if_true, Option.getD_some, hparse]
  simp [update_sync_status]
  intro h
  exact absurd h (by decide)

/-- Witness for C3 at a concrete scenario. -/
theorem C3_sync_retry_on_401_witness :
    (sync_policy ⟨some "tok0", true⟩ "tokA" "tokB"
      ⟨401, none, none, some "Unauthorized", none, none⟩
      ⟨200, some "Success",
        some "Successfully Saved with Control No : 398254", none, none, none⟩
      ⟨none, none, none, none, none⟩ 1 2 (some "blob")).2.2.postCount = 2 ∧
    (sync_policy ⟨some "tok0", true⟩ "tokA" "tokB"
      ⟨401, none, none, some "Unauthorized", none, none⟩
      ⟨200, some "Success",
        some "Successfully Saved with Control No : 398254", none, none, none⟩
      ⟨none, none, none, none, none⟩ 1 2
        (some "blob")).2.1.saiba_sync_status = some "Synced" ∧
    (sync_policy ⟨some "tok0", true⟩ "tokA" "tokB"
      ⟨401, none, none, some "Unauthorized", none, none⟩
      ⟨200, some "Success",
        some "Successfully Saved with Control No : 398254", none, none, none⟩
      ⟨none, none, none, none, none⟩ 1 2
        (some "blob")).2.1.saiba_control_number = some "398254" := by
  have h := C3_sync_retry_on_401 ⟨some "tok0", true⟩ "tokA" "tokB"
    ⟨401, none, none, some "Unauthorized", none, none⟩
    ⟨200, some "Success",
      some "Successfully Saved with Control No : 398254", none, none, none⟩
    ⟨none, none, none, none, none⟩ 1 2 (some "blob") rfl rfl rfl rfl
  exact ⟨h.1, h.2.2.2.2.2.1, h.2.2.2.2.2.2⟩

end Salasar
